import Mathlib

/-!
Verification development for the simulation core: tile map with
depletion tracking, harvest skills, entity-group lifecycle, NPC spawn
policy, and the per-tick game-state snapshot/query layer.

Each definition is a shallow embedding of the corresponding Python
function; external collaborators (terrain processing, loot rolls,
random draws, combat spawn positions) are passed as oracle parameters.
-/

namespace NMMO

/-- Grid positions, as in the source indexed by (row, col). Integers are
used so that neighbor arithmetic (r-1, r+1) is exact. -/
abbrev Pos := Int × Int

/-- Modelled from the spec: the Tile class (nmmo.core.tile) is not under
src/; per the spec data model a tile holds a material state, a habitable
flag, a depletion boolean plus regeneration countdown, and the set of
occupying entity ids. The loot field is the loot table returned by a
successful harvest (none for non-harvestable materials). -/
structure Tile where
  state : Nat
  habitable : Bool
  depleted : Bool
  countdown : Nat
  loot : Option Nat
  ents : List Int
deriving DecidableEq

/-- Modelled from the spec: Tile.harvest (nmmo.core.tile is not under
src/) returns the loot table if the tile currently holds a harvestable
resource (a loot-bearing material, not depleted), else nothing; when
deplete is true the tile is marked depleted, with the loot table still
returned from the pre-depletion state. -/
def Tile.harvest (t : Tile) (deplete : Bool) : Option Nat × Tile :=
  if t.loot.isSome ∧ t.depleted = false then
    (t.loot, if deplete then { t with depleted := true } else t)
  else
    (none, t)

/-- Modelled from the spec: Tile.step (nmmo.core.tile is not under src/).
A depleted tile whose regeneration countdown has completed is restored to
harvestable; a depleted tile still counting down decrements its countdown;
a non-depleted tile is unchanged. -/
def Tile.step (t : Tile) : Tile :=
  if t.depleted then
    if t.countdown = 0 then { t with depleted := false }
    else { t with countdown := t.countdown - 1 }
  else t

/-- Modelled from the spec: Tile.remove_entity (nmmo.core.tile is not
under src/) frees the occupancy of one entity id. -/
def Tile.remove_entity (t : Tile) (ent_id : Int) : Tile :=
  { t with ents := t.ents.filter (fun i => i ≠ ent_id) }

/-- Modelled from the spec: Tile.add_entity (nmmo.core.tile is not under
src/) records one occupying entity id. -/
def Tile.add_entity (t : Tile) (ent_id : Int) : Tile :=
  { t with ents := t.ents ++ [ent_id] }

/-- Configuration constants consumed by the embedded core.  The
habitableOf and lootOf functions stand for the per-material attributes
of the external material module; levelAtExp stands for the external
experience calculator. -/
structure Config where
  MAP_SIZE : Nat
  MAP_CENTER : Nat
  MAP_BORDER : Nat
  PLAYER_VISION_RADIUS : Nat
  habitableOf : Nat → Bool
  lootOf : Nat → Option Nat
  regenCountdown : Nat
  RESOURCE_SYSTEM_ENABLED : Bool
  RESOURCE_DEPLETION_RATE : ℚ
  RESOURCE_BASE : ℚ
  RESOURCE_HARVEST_RESTORE_FRACTION : ℚ
  PROGRESSION_BASE_XP_SCALE : ℚ
  PROGRESSION_HARVEST_XP_SCALE : ℚ
  levelAtExp : ℚ → Int
  NPC_SYSTEM_ENABLED : Bool
  NPC_SPAWN_ATTEMPTS : Nat
  NPC_N : Nat

/-- Modelled from the spec: Tile.reset re-initializes the tile in place
from the new material: material and habitable flags set, depletion
cleared, countdown reinitialized, occupancy emptied. -/
def Tile.reset (mat : Nat) (cfg : Config) : Tile :=
  { state := mat
    habitable := cfg.habitableOf mat
    depleted := false
    countdown := cfg.regenCountdown
    loot := cfg.lootOf mat
    ents := [] }

/-- Pointwise update of a tile grid represented as a function. -/
def updateTile (f : Pos → Tile) (p : Pos) (t : Tile) : Pos → Tile :=
  fun q => if q = p then t else f q

/-- The Map object of nmmo.core.map: the tile grid, the OrderedSet of
tiles pending regeneration (update_list, here by position), and the
pathfinding cache keyed by (start, goal). -/
structure Map where
  tiles : Pos → Tile
  update_list : List Pos
  pathfinding_cache : List ((Pos × Pos) × List Pos)

/-- OrderedSet.add: append if absent, keeping insertion order. -/
def osAdd (l : List Pos) (p : Pos) : List Pos :=
  if p ∈ l then l else l ++ [p]

/-- Raw map data passed to reset (the map entry of map_dict). -/
structure MapDict where
  raw : List (List Nat)

/-- Shape check of the raw terrain against the configured size, as in
the assert at the top of Map.reset. -/
def MapDict.shapeOk (d : MapDict) (cfg : Config) : Bool :=
  d.raw.length = cfg.MAP_SIZE && d.raw.all (fun row => row.length = cfg.MAP_SIZE)

/-- Lookup into a row-major material grid; none when out of bounds. -/
def gridGet (g : List (List Nat)) (p : Pos) : Option Nat :=
  if 0 ≤ p.1 ∧ 0 ≤ p.2 then (g.getD p.1.toNat [])[p.2.toNat]? else none

/-- Map.reset from nmmo/core/map.py: asserts the raw terrain dimensions
match config.MAP_SIZE (ConfigMismatch otherwise) and that MAP_BORDER
exceeds PLAYER_VISION_RADIUS; empties the pending-regeneration OrderedSet;
processes the raw map through the external terrain collaborator
(processMap, standing for the _process_map helper built on
fractal_to_material and process_map_border); and re-initializes every
tile in place from the resulting material grid.  The source never
touches pathfinding_cache in reset, and neither does this embedding. -/
def Map.reset (m : Map) (cfg : Config)
    (processMap : List (List Nat) → List (List Nat))
    (d : MapDict) : Except String Map :=
  if ¬ d.shapeOk cfg then
    .error "Map shape is inconsistent with config.MAP_SIZE"
  else if ¬ (cfg.MAP_BORDER > cfg.PLAYER_VISION_RADIUS) then
    .error "MAP_BORDER must be greater than PLAYER_VISION_RADIUS"
  else
    let matl := processMap d.raw
    .ok { m with
      update_list := []
      tiles := fun p =>
        match gridGet matl p with
        | some mat => Tile.reset mat cfg
        | none => m.tiles p }

/-- Map.step from nmmo/core/map.py: iterate a copy of update_list; a
visited tile that is (already) not depleted is removed from the live
update_list; then the tile is stepped.  Note the removal test reads the
tile state before tile.step runs. -/
def stepBody (acc : Map) (p : Pos) : Map :=
  let t := acc.tiles p
  let acc' :=
    if t.depleted = false then { acc with update_list := acc.update_list.erase p }
    else acc
  { acc' with tiles := updateTile acc'.tiles p t.step }

/-- Map.step: fold the body over the frozen copy of update_list. -/
def Map.step (m : Map) : Map :=
  m.update_list.foldl stepBody m

/-- Map.harvest from nmmo/core/map.py: when deplete is true the tile at
(r, c) is added to update_list before (and regardless of) the outcome of
the tile-level harvest; the tile-level harvest result is returned. -/
def Map.harvest (m : Map) (p : Pos) (deplete : Bool) : Option Nat × Map :=
  let m1 := if deplete then { m with update_list := osAdd m.update_list p } else m
  let (res, t') := (m1.tiles p).harvest deplete
  (res, { m1 with tiles := updateTile m1.tiles p t' })

/-- Map.is_valid_pos from nmmo/core/map.py: bounds check against
config.MAP_SIZE. -/
def Map.is_valid_pos (m : Map) (cfg : Config) (p : Pos) : Bool :=
  0 ≤ p.1 && p.1 < (cfg.MAP_SIZE : Int) && 0 ≤ p.2 && p.2 < (cfg.MAP_SIZE : Int)

/-! Concrete instances used by closed theorems and witnesses. -/

/-- A grass-like tile with no harvestable loot. -/
def tileGrass : Tile :=
  { state := 2, habitable := true, depleted := false, countdown := 0,
    loot := none, ents := [] }

/-- A forest-like tile carrying loot table 7. -/
def tileForest : Tile :=
  { state := 4, habitable := true, depleted := false, countdown := 3,
    loot := some 7, ents := [] }

/-- A small concrete configuration (size 3, border 1, vision 0). -/
def cfgEx : Config :=
  { MAP_SIZE := 3
    MAP_CENTER := 1
    MAP_BORDER := 1
    PLAYER_VISION_RADIUS := 0
    habitableOf := fun m => m ≠ 0
    lootOf := fun m => if m = 4 then some 7 else none
    regenCountdown := 3
    RESOURCE_SYSTEM_ENABLED := true
    RESOURCE_DEPLETION_RATE := 5
    RESOURCE_BASE := 100
    RESOURCE_HARVEST_RESTORE_FRACTION := 1/2
    PROGRESSION_BASE_XP_SCALE := 1
    PROGRESSION_HARVEST_XP_SCALE := 10
    levelAtExp := fun e => e.floor / 100 + 1
    NPC_SYSTEM_ENABLED := true
    NPC_SPAWN_ATTEMPTS := 3
    NPC_N := 1 }

/-- A map whose pathfinding cache holds one entry from a previous
episode and whose pending set is non-empty. -/
def mapStale : Map :=
  { tiles := fun _ => tileGrass
    update_list := [(1, 1)]
    pathfinding_cache := [(((0, 0), (1, 1)), [(0, 0), (1, 1)])] }

/-- A correctly sized (3 by 3) raw terrain dictionary. -/
def dictEx : MapDict :=
  { raw := [[0, 0, 0], [0, 2, 0], [0, 0, 0]] }

/-- Helper: a successful reset leaves pathfinding_cache exactly as it
was (the source function never touches that attribute). -/
theorem reset_pathfinding_cache_eq (m : Map) (cfg : Config)
    (pm : List (List Nat) → List (List Nat)) (d : MapDict) (m' : Map)
    (h : m.reset cfg pm d = .ok m') :
    m'.pathfinding_cache = m.pathfinding_cache := by
  unfold Map.reset at h
  by_cases h1 : ¬ d.shapeOk cfg
  · simp [h1] at h
  · by_cases h2 : ¬ (cfg.MAP_BORDER > cfg.PLAYER_VISION_RADIUS)
    · simp [h1, h2] at h
    · simp [h1, h2] at h
      subst h
      rfl

/-- C1: the claim states that after every dimension-matching Map.reset
the pathfinding cache is empty.  The source's reset never clears
pathfinding_cache (it is created only in the constructor), so a cache
entry recorded before reset survives the reset: at this concrete input
the reset succeeds and the cache still holds the stale entry. -/
theorem reset_retains_stale_pathfinding_cache :
    (mapStale.reset cfgEx id dictEx).map (fun m => m.pathfinding_cache)
      = .ok [(((0, 0), (1, 1)), [(0, 0), (1, 1)])] := by
  rfl

/-- C10: Map.harvest with deplete adds the tile position to the pending
set update_list before and independently of the tile-level harvest
outcome: for every map contents whatsoever (harvestable or not) and
every in-bounds position, the position is a member of update_list when
harvest returns. -/
theorem harvest_registers_unconditionally (m : Map) (cfg : Config) (p : Pos)
    (hv : m.is_valid_pos cfg p = true) :
    p ∈ ((m.harvest p true).2).update_list := by
  unfold Map.harvest
  simp only [osAdd]
  by_cases hp : p ∈ m.update_list
  · simp [hp]
  · simp [hp]

/-- Witness for C10 at a concrete input: the tile at (1, 1) is
grass-like and yields no loot, yet is still registered in the pending
set. -/
theorem harvest_registers_unconditionally_witness :
    mapStale.is_valid_pos cfgEx (1, 1) = true
    ∧ (1, 1) ∈ ((mapStale.harvest (1, 1) true).2).update_list
    ∧ (mapStale.harvest (1, 1) true).1 = none :=
  ⟨by decide, harvest_registers_unconditionally mapStale cfgEx (1, 1) (by decide),
   by rfl⟩

/-! Lemmas on the step body: each visit touches only the tile at its own
position, and update_list only ever shrinks. -/

/-- The update_list produced by one visit of the step fold. -/
theorem stepBody_update_list (acc : Map) (p : Pos) :
    (stepBody acc p).update_list =
      if (acc.tiles p).depleted = false then acc.update_list.erase p
      else acc.update_list := by
  unfold stepBody
  by_cases hd : (acc.tiles p).depleted = false <;> simp [hd]

/-- One visit leaves every other position's tile unchanged. -/
theorem stepBody_tiles_ne (acc : Map) (p q : Pos) (h : q ≠ p) :
    (stepBody acc p).tiles q = acc.tiles q := by
  unfold stepBody
  by_cases hd : (acc.tiles p).depleted = false <;> simp [hd, updateTile, h]

/-- One visit sets the visited tile to its stepped state. -/
theorem stepBody_tiles_self (acc : Map) (p : Pos) :
    (stepBody acc p).tiles p = (acc.tiles p).step := by
  unfold stepBody
  by_cases hd : (acc.tiles p).depleted = false <;> simp [hd, updateTile]

/-- Membership at a different position survives one visit unchanged. -/
theorem stepBody_mem_iff (acc : Map) (p q : Pos) (h : q ≠ p) :
    q ∈ (stepBody acc p).update_list ↔ q ∈ acc.update_list := by
  rw [stepBody_update_list]
  by_cases hd : (acc.tiles p).depleted = false
  · simp [hd, List.mem_erase_of_ne h]
  · simp [hd]

/-- One visit never adds to update_list. -/
theorem stepBody_not_mem (acc : Map) (p q : Pos)
    (h : q ∉ acc.update_list) : q ∉ (stepBody acc p).update_list := by
  rw [stepBody_update_list]
  by_cases hd : (acc.tiles p).depleted = false
  · simp only [hd, if_true]
    exact fun hq => h (List.mem_of_mem_erase hq)
  · simpa [hd] using h

/-- One visit preserves distinctness of update_list. -/
theorem stepBody_nodup (acc : Map) (p : Pos)
    (h : acc.update_list.Nodup) : (stepBody acc p).update_list.Nodup := by
  rw [stepBody_update_list]
  by_cases hd : (acc.tiles p).depleted = false
  · simpa [hd] using h.erase p
  · simpa [hd] using h

/-- Folding the body over positions not containing q leaves the tile at
q unchanged. -/
theorem foldl_tiles_not_mem (L : List Pos) (acc : Map) (q : Pos)
    (h : q ∉ L) : (L.foldl stepBody acc).tiles q = acc.tiles q := by
  induction L generalizing acc with
  | nil => rfl
  | cons a L ih =>
    have hqa : q ≠ a := fun hqa => h (hqa ▸ List.mem_cons_self a L)
    have hqL : q ∉ L := fun hq => h (List.mem_cons_of_mem a hq)
    simp only [List.foldl_cons]
    rw [ih (stepBody acc a) hqL, stepBody_tiles_ne acc a q hqa]

/-- Folding the body over positions not containing q preserves whether q
is in update_list. -/
theorem foldl_mem_iff_not_mem (L : List Pos) (acc : Map) (q : Pos)
    (h : q ∉ L) :
    q ∈ (L.foldl stepBody acc).update_list ↔ q ∈ acc.update_list := by
  induction L generalizing acc with
  | nil => exact Iff.rfl
  | cons a L ih =>
    have hqa : q ≠ a := fun hqa => h (hqa ▸ List.mem_cons_self a L)
    have hqL : q ∉ L := fun hq => h (List.mem_cons_of_mem a hq)
    simp only [List.foldl_cons]
    rw [ih (stepBody acc a) hqL, stepBody_mem_iff acc a q hqa]

/-- The fold never adds to update_list. -/
theorem foldl_not_mem (L : List Pos) (acc : Map) (q : Pos)
    (h : q ∉ acc.update_list) : q ∉ (L.foldl stepBody acc).update_list := by
  induction L generalizing acc with
  | nil => exact h
  | cons a L ih =>
    simp only [List.foldl_cons]
    exact ih (stepBody acc a) (stepBody_not_mem acc a q h)

/-- The fold preserves distinctness of update_list. -/
theorem foldl_nodup (L : List Pos) (acc : Map)
    (h : acc.update_list.Nodup) : (L.foldl stepBody acc).update_list.Nodup := by
  induction L generalizing acc with
  | nil => exact h
  | cons a L ih =>
    simp only [List.foldl_cons]
    exact ih (stepBody acc a) (stepBody_nodup acc a h)

/-- One pass of Map.step over a pending tile that is depleted at the
start of the call: the tile is stepped exactly once, it stays in
update_list (removal only happens on a visit that finds the tile already
non-depleted), and update_list stays duplicate-free. -/
theorem step_pass_depleted (m : Map) (p : Pos)
    (hnd : m.update_list.Nodup) (hp : p ∈ m.update_list)
    (hdep : (m.tiles p).depleted = true) :
    (m.step).tiles p = (m.tiles p).step
    ∧ p ∈ (m.step).update_list
    ∧ (m.step).update_list.Nodup := by
  obtain ⟨L1, L2, hL⟩ := List.append_of_mem hp
  have hnd' : (L1 ++ p :: L2).Nodup := hL ▸ hnd
  rw [List.nodup_append] at hnd'
  obtain ⟨hnd1, hnd2, hdisj⟩ := hnd'
  have hpL1 : p ∉ L1 := fun h => hdisj h (List.mem_cons_self p L2)
  have hpL2 : p ∉ L2 := (List.nodup_cons.mp hnd2).1
  unfold Map.step
  rw [hL, List.foldl_append, List.foldl_cons]
  have hA_tiles : (L1.foldl stepBody m).tiles p = m.tiles p :=
    foldl_tiles_not_mem L1 m p hpL1
  have hA_mem : p ∈ (L1.foldl stepBody m).update_list :=
    (foldl_mem_iff_not_mem L1 m p hpL1).mpr hp
  have hA_nd : (L1.foldl stepBody m).update_list.Nodup := foldl_nodup L1 m hnd
  have hAdep : ((L1.foldl stepBody m).tiles p).depleted = true := by
    rw [hA_tiles]; exact hdep
  have hB_ul : (stepBody (L1.foldl stepBody m) p).update_list
      = (L1.foldl stepBody m).update_list := by
    rw [stepBody_update_list, hAdep]; simp
  have hB_tiles : (stepBody (L1.foldl stepBody m) p).tiles p = (m.tiles p).step := by
    rw [stepBody_tiles_self, hA_tiles]
  refine ⟨?_, ?_, ?_⟩
  · rw [foldl_tiles_not_mem L2 _ p hpL2, hB_tiles]
  · exact (foldl_mem_iff_not_mem L2 _ p hpL2).mpr (hB_ul ▸ hA_mem)
  · exact foldl_nodup L2 _ (hB_ul ▸ hA_nd)

/-- One pass of Map.step over a pending tile that is already
non-depleted at the start of the call removes it from update_list. -/
theorem step_pass_not_depleted (m : Map) (p : Pos)
    (hnd : m.update_list.Nodup) (hp : p ∈ m.update_list)
    (hdep : (m.tiles p).depleted = false) :
    p ∉ (m.step).update_list := by
  obtain ⟨L1, L2, hL⟩ := List.append_of_mem hp
  have hnd' : (L1 ++ p :: L2).Nodup := hL ▸ hnd
  rw [List.nodup_append] at hnd'
  obtain ⟨hnd1, hnd2, hdisj⟩ := hnd'
  have hpL1 : p ∉ L1 := fun h => hdisj h (List.mem_cons_self p L2)
  have hpL2 : p ∉ L2 := (List.nodup_cons.mp hnd2).1
  unfold Map.step
  rw [hL, List.foldl_append, List.foldl_cons]
  have hA_tiles : (L1.foldl stepBody m).tiles p = m.tiles p :=
    foldl_tiles_not_mem L1 m p hpL1
  have hA_nd : (L1.foldl stepBody m).update_list.Nodup := foldl_nodup L1 m hnd
  have hAdep : ((L1.foldl stepBody m).tiles p).depleted = false := by
    rw [hA_tiles]; exact hdep
  have hB_ul : (stepBody (L1.foldl stepBody m) p).update_list
      = (L1.foldl stepBody m).update_list.erase p := by
    rw [stepBody_update_list, hAdep]; simp
  have hB_not : p ∉ (stepBody (L1.foldl stepBody m) p).update_list := by
    rw [hB_ul]
    intro hmem
    exact absurd ((hA_nd.mem_erase_iff).mp hmem).1 (by simp)
  exact foldl_not_mem L2 _ p hB_not

/-- C3 (amended): for a tile in the pending set at the start of a
Map.step call and depleted at that point, if its regrowth condition
(countdown reached zero) is satisfied during the call it is restored to
harvestable by that call, but it REMAINS in the pending set when the
call returns and is removed only by the next Map.step call (the source
tests depletion before stepping the tile); a tile whose condition is not
yet satisfied stays depleted and stays in the set. -/
theorem step_restores_ready_but_delays_removal (m : Map) (p : Pos)
    (hnd : m.update_list.Nodup) (hp : p ∈ m.update_list)
    (hdep : (m.tiles p).depleted = true) :
    ((m.tiles p).countdown = 0 →
      ((m.step).tiles p).depleted = false
      ∧ p ∈ (m.step).update_list
      ∧ p ∉ ((m.step).step).update_list)
    ∧ ((m.tiles p).countdown ≠ 0 →
      ((m.step).tiles p).depleted = true
      ∧ p ∈ (m.step).update_list) := by
  obtain ⟨htiles, hmem, hnodup⟩ := step_pass_depleted m p hnd hp hdep
  constructor
  · intro h0
    have hstep : ((m.tiles p).step).depleted = false := by
      unfold Tile.step; simp [hdep, h0]
    have hrestored : ((m.step).tiles p).depleted = false := by
      rw [htiles]; exact hstep
    refine ⟨hrestored, hmem, ?_⟩
    exact step_pass_not_depleted (m.step) p hnodup hmem hrestored
  · intro h0
    have hstep : ((m.tiles p).step).depleted = true := by
      unfold Tile.step; simp [hdep, h0]
    exact ⟨by rw [htiles]; exact hstep, hmem⟩

/-- A one-pending-tile map: the tile at (0, 0) is depleted with its
regeneration countdown complete. -/
def mapReady : Map :=
  { tiles := fun p =>
      if p = (0, 0) then { tileForest with depleted := true, countdown := 0 }
      else tileGrass
    update_list := [(0, 0)]
    pathfinding_cache := [] }

/-- C3 counterexample: at mapReady the tile's regrowth condition is
satisfied during the Map.step call and the tile is indeed restored to
harvestable, yet the position is STILL a member of the pending set when
that same call returns, contradicting the claim that it is no longer a
member. -/
theorem step_ready_tile_still_pending :
    ((mapReady.tiles (0, 0)).depleted = true
      ∧ (mapReady.tiles (0, 0)).countdown = 0)
    ∧ ((mapReady.step).tiles (0, 0)).depleted = false
    ∧ (0, 0) ∈ (mapReady.step).update_list := by
  refine ⟨⟨by decide, by decide⟩, by decide, by decide⟩

/-- Witness for the amended C3 theorem at mapReady: restored during the
first call, removed only by the second. -/
theorem step_restores_ready_but_delays_removal_witness :
    (mapReady.update_list.Nodup ∧ (0, 0) ∈ mapReady.update_list
      ∧ (mapReady.tiles (0, 0)).depleted = true)
    ∧ ((mapReady.step).tiles (0, 0)).depleted = false
    ∧ (0, 0) ∈ (mapReady.step).update_list
    ∧ (0, 0) ∉ ((mapReady.step).step).update_list := by
  refine ⟨⟨by decide, by decide, by decide⟩, ?_⟩
  exact (step_restores_ready_but_delays_removal mapReady (0, 0)
    (by decide) (by decide) (by decide)).1 (by decide)

/-! Skill system (nmmo/systems/skill.py). -/

/-- Material indices used by the harvest skills (the external material
module assigns each terrain type a fixed index; only distinctness
matters here). -/
def Material.WaterM : Nat := 1

/-- Grass material index. -/
def Material.Grass : Nat := 2

/-- Fish material index. -/
def Material.Fish : Nat := 3

/-- Forest material index. -/
def Material.Forest : Nat := 4

/-- The concrete skill classes that parameterize HarvestSkill. -/
inductive SkillKind where
  | food | water | fishing | herbalism | prospecting | carving | alchemy
deriving DecidableEq

/-- Modelled from the spec: the resource pool class (nmmo resource
module, not under src/) holds a bounded numeric level: decrement clamps
at zero and increment clamps at the pool maximum. -/
structure Resource where
  val : ℚ
  maxVal : ℚ
deriving DecidableEq

/-- Modelled from the spec: bounded decrement of a resource pool. -/
def Resource.decrement (x : Resource) (v : ℚ) : Resource :=
  { x with val := max 0 (x.val - v) }

/-- Modelled from the spec: bounded increment of a resource pool. -/
def Resource.increment (x : Resource) (v : ℚ) : Resource :=
  { x with val := min x.maxVal (x.val + v) }

/-- A held tool (equipment.held): its matching material and its level. -/
structure Tool where
  matKind : Nat
  level : Nat
deriving DecidableEq

/-- The slice of entity state consumed by the skill system: position,
the two survival resource pools, held tool, and inventory (free slots
plus deposited item kinds). -/
structure Entity where
  pos : Pos
  food : Resource
  water : Resource
  held : Option Tool
  invSpace : Nat
  invItems : List Nat
deriving DecidableEq

/-- Skill progression state: accumulated experience and derived level. -/
structure SkillState where
  exp : ℚ
  level : Int
deriving DecidableEq

/-- Skill.add_xp from nmmo/systems/skill.py: scale the grant by
PROGRESSION_BASE_XP_SCALE, accumulate, and recompute the level through
the experience calculator. -/
def SkillState.add_xp (s : SkillState) (cfg : Config) (xp : ℚ) : SkillState :=
  let exp1 := s.exp + xp * cfg.PROGRESSION_BASE_XP_SCALE
  { exp := exp1, level := cfg.levelAtExp exp1 }

/-- The realm as seen by the skill system: the tile map. -/
structure Realm where
  map : Map

/-- One drop deposit inside HarvestSkill.processDrops: received while
inventory space remains, silently discarded otherwise. -/
def deposit (e : Entity) (drop : Nat) : Entity :=
  if 0 < e.invSpace then
    { e with invItems := e.invItems ++ [drop], invSpace := e.invSpace - 1 }
  else e

/-- HarvestSkill.processDrops from nmmo/systems/skill.py: the tool level
applies only when the held tool matches the material's tool type (else
level 1); rolled drops are deposited one by one while inventory space
remains; experience is granted unless the skill is Food or Water. -/
def processDrops (kind : SkillKind) (cfg : Config)
    (roll : Nat → Nat → List Nat) (ent : Entity) (sk : SkillState)
    (matl : Nat) (lootT : Nat) : Entity × SkillState :=
  let level : Nat :=
    match ent.held with
    | some tool => if tool.matKind = matl then tool.level else 1
    | none => 1
  let ent1 := (roll lootT level).foldl deposit ent
  let sk1 :=
    if kind ≠ SkillKind.food ∧ kind ≠ SkillKind.water then
      sk.add_xp cfg cfg.PROGRESSION_HARVEST_XP_SCALE
    else sk
  (ent1, sk1)

/-- HarvestSkill.harvest from nmmo/systems/skill.py: requires the
entity's own tile to hold the target material; calls Map.harvest (whose
pending-set registration happens regardless of loot) and processes drops
only when a drop table came back; returns the success flag. -/
def skillHarvest (kind : SkillKind) (cfg : Config)
    (roll : Nat → Nat → List Nat) (realm : Realm) (ent : Entity)
    (sk : SkillState) (matl : Nat) (deplete : Bool) :
    Bool × Realm × Entity × SkillState :=
  if (realm.map.tiles ent.pos).state ≠ matl then (false, realm, ent, sk)
  else
    let hm := realm.map.harvest ent.pos deplete
    let realm1 : Realm := { realm with map := hm.2 }
    match hm.1 with
    | some lootT =>
      let es := processDrops kind cfg roll ent sk matl lootT
      (true, realm1, es.1, es.2)
    | none => (false, realm1, ent, sk)

/-- One neighbor check of HarvestSkill.harvestAdjacent: on a material
match, harvest that neighbor (mutating the map) and overwrite the local
dropTable variable with whatever came back. -/
def adjCheck (matl : Nat) (deplete : Bool) (q : Pos)
    (s : Realm × Option Nat) : Realm × Option Nat :=
  if ((s.1).map.tiles q).state = matl then
    let hm := (s.1).map.harvest q deplete
    ({ s.1 with map := hm.2 }, hm.1)
  else s

/-- HarvestSkill.harvestAdjacent from nmmo/systems/skill.py: four
SEQUENTIAL INDEPENDENT if-statements checking up (r-1,c), down (r+1,c),
left (r,c-1), right (r,c+1) in that order; every matching neighbor is
harvested, and the dropTable variable keeps only the last match's
result, which is the one processed. -/
def harvestAdjacent (kind : SkillKind) (cfg : Config)
    (roll : Nat → Nat → List Nat) (realm : Realm) (ent : Entity)
    (sk : SkillState) (matl : Nat) (deplete : Bool) :
    Bool × Realm × Entity × SkillState :=
  let r := ent.pos.1
  let c := ent.pos.2
  let s4 :=
    adjCheck matl deplete (r, c + 1)
      (adjCheck matl deplete (r, c - 1)
        (adjCheck matl deplete (r + 1, c)
          (adjCheck matl deplete (r - 1, c) (realm, none))))
  match s4.2 with
  | some lootT =>
    let es := processDrops kind cfg roll ent sk matl lootT
    (true, s4.1, es.1, es.2)
  | none => (false, s4.1, ent, sk)

/-- A neighbor holds a harvestable match: the required material, a loot
table, and not yet depleted. -/
@[reducible] def harvestableMatch (m : Map) (q : Pos) (matl : Nat) : Prop :=
  (m.tiles q).state = matl
  ∧ (m.tiles q).loot.isSome = true
  ∧ (m.tiles q).depleted = false

/-- Map.harvest leaves tiles at other positions unchanged. -/
theorem harvest_tiles_ne (m : Map) (p q : Pos) (d : Bool) (h : q ≠ p) :
    ((m.harvest p d).2).tiles q = m.tiles q := by
  unfold Map.harvest
  by_cases hd : d <;> simp [hd, updateTile, h]

/-- Map.harvest with deplete on a harvestable tile marks exactly that
tile depleted. -/
theorem harvest_depletes_self (m : Map) (p : Pos)
    (hl : (m.tiles p).loot.isSome = true) (hd : (m.tiles p).depleted = false) :
    ((m.harvest p true).2).tiles p = { m.tiles p with depleted := true } := by
  unfold Map.harvest Tile.harvest
  simp [hl, hd, updateTile]

/-- Map.harvest never un-depletes a tile. -/
theorem harvest_keeps_depleted (m : Map) (p q : Pos) (d : Bool)
    (h : (m.tiles q).depleted = true) :
    (((m.harvest p d).2).tiles q).depleted = true := by
  by_cases hpq : q = p
  · subst hpq
    unfold Map.harvest Tile.harvest
    by_cases hd : d <;> simp [hd, updateTile, h]
  · rw [harvest_tiles_ne m p q d hpq]; exact h

/-- One adjacency check leaves tiles at other positions unchanged. -/
theorem adjCheck_tiles_ne (matl : Nat) (d : Bool) (q q' : Pos)
    (s : Realm × Option Nat) (h : q' ≠ q) :
    ((adjCheck matl d q s).1).map.tiles q' = s.1.map.tiles q' := by
  unfold adjCheck
  by_cases hs : (s.1.map.tiles q).state = matl
  · simp only [hs, if_true]
    exact harvest_tiles_ne _ q q' d h
  · simp [hs]

/-- One adjacency check on a harvestable matching neighbor depletes it
(when depleting). -/
theorem adjCheck_depletes (matl : Nat) (q : Pos) (s : Realm × Option Nat)
    (hm : harvestableMatch s.1.map q matl) :
    (((adjCheck matl true q s).1).map.tiles q).depleted = true := by
  obtain ⟨hs, hl, hd⟩ := hm
  unfold adjCheck
  simp only [hs, if_true]
  rw [harvest_depletes_self _ q hl hd]

/-- One adjacency check never un-depletes any tile. -/
theorem adjCheck_keeps_depleted (matl : Nat) (d : Bool) (q q' : Pos)
    (s : Realm × Option Nat) (h : (s.1.map.tiles q').depleted = true) :
    (((adjCheck matl d q s).1).map.tiles q').depleted = true := by
  unfold adjCheck
  by_cases hs : (s.1.map.tiles q).state = matl
  · simp only [hs, if_true]
    exact harvest_keeps_depleted _ q q' d h
  · simpa [hs] using h

/-- The tile-level harvest never changes the material state. -/
theorem Tile.harvest_state (t : Tile) (d : Bool) :
    ((t.harvest d).2).state = t.state := by
  unfold Tile.harvest
  split_ifs <;> rfl

/-- The tile-level harvest of a harvestable tile returns its loot table,
for either value of the deplete flag. -/
theorem Tile.harvest_loot (t : Tile) (d : Bool)
    (hl : t.loot.isSome = true) (hd : t.depleted = false) :
    ((t.harvest d).1) = t.loot := by
  unfold Tile.harvest
  simp [hl, hd]

/-- Map.harvest never changes any tile's material state. -/
theorem harvest_tiles_state (m : Map) (p q : Pos) (d : Bool) :
    ((((m.harvest p d).2).tiles q)).state = (m.tiles q).state := by
  by_cases hq : q = p
  · subst hq
    unfold Map.harvest
    cases d <;> simp [updateTile, Tile.harvest_state]
  · rw [harvest_tiles_ne m p q d hq]

/-- Map.harvest of a harvestable tile returns its loot table, for either
value of the deplete flag. -/
theorem harvest_returns_loot (m : Map) (p : Pos) (d : Bool)
    (hl : (m.tiles p).loot.isSome = true) (hd : (m.tiles p).depleted = false) :
    (m.harvest p d).1 = (m.tiles p).loot := by
  unfold Map.harvest
  cases d <;> simp [Tile.harvest_loot _ _ hl hd]

/-- One adjacency check never changes any tile's material state. -/
theorem adjCheck_state (matl : Nat) (d : Bool) (q q' : Pos)
    (s : Realm × Option Nat) :
    (((adjCheck matl d q s).1).map.tiles q').state = (s.1.map.tiles q').state := by
  unfold adjCheck
  by_cases hs : (s.1.map.tiles q).state = matl
  · simp only [hs, if_true]
    exact harvest_tiles_state _ q q' d
  · simp [hs]

/-- An adjacency check whose neighbor does not hold the material is a
no-op: neither the realm nor the dropTable variable changes. -/
theorem adjCheck_no_match (matl : Nat) (d : Bool) (q : Pos)
    (s : Realm × Option Nat) (hs : (s.1.map.tiles q).state ≠ matl) :
    adjCheck matl d q s = s := by
  unfold adjCheck
  simp [hs]

/-- An adjacency check on a harvestable match OVERWRITES the dropTable
variable with that neighbor's loot table, for either deplete flag. -/
theorem adjCheck_match_loot (matl : Nat) (d : Bool) (q : Pos)
    (s : Realm × Option Nat) (hm : harvestableMatch s.1.map q matl) :
    (adjCheck matl d q s).2 = (s.1.map.tiles q).loot := by
  obtain ⟨hs, hl, hd⟩ := hm
  unfold adjCheck
  simp only [hs, if_true]
  exact harvest_returns_loot _ q d hl hd

/-- Every neighbor holding a harvestable match is depleted by a
depleting harvestAdjacent call (the four if-statements are independent,
so no later neighbor is skipped after an earlier match). -/
theorem harvestAdjacent_depletes_every_match (kind : SkillKind)
    (cfg : Config) (roll : Nat → Nat → List Nat) (realm : Realm)
    (ent : Entity) (sk : SkillState) (matl : Nat) :
    ∀ q ∈ [(ent.pos.1 - 1, ent.pos.2), (ent.pos.1 + 1, ent.pos.2),
           (ent.pos.1, ent.pos.2 - 1), (ent.pos.1, ent.pos.2 + 1)],
      harvestableMatch realm.map q matl →
      (((harvestAdjacent kind cfg roll realm ent sk matl true).2.1).map.tiles q).depleted
        = true := by
  intro q hq hmatch
  have hres : (harvestAdjacent kind cfg roll realm ent sk matl true).2.1
      = (adjCheck matl true (ent.pos.1, ent.pos.2 + 1)
          (adjCheck matl true (ent.pos.1, ent.pos.2 - 1)
            (adjCheck matl true (ent.pos.1 + 1, ent.pos.2)
              (adjCheck matl true (ent.pos.1 - 1, ent.pos.2) (realm, none))))).1 := by
    unfold harvestAdjacent
    cases h4 : (adjCheck matl true (ent.pos.1, ent.pos.2 + 1)
          (adjCheck matl true (ent.pos.1, ent.pos.2 - 1)
            (adjCheck matl true (ent.pos.1 + 1, ent.pos.2)
              (adjCheck matl true (ent.pos.1 - 1, ent.pos.2) (realm, none))))).2 <;>
      simp [h4]
  rw [hres]
  have hud : ((ent.pos.1 : Int) + 1, ent.pos.2) ≠ (ent.pos.1 - 1, ent.pos.2) := by
    intro h; rw [Prod.ext_iff] at h; omega
  have hlu : ((ent.pos.1 : Int), ent.pos.2 - 1) ≠ (ent.pos.1 - 1, ent.pos.2) := by
    intro h; rw [Prod.ext_iff] at h; omega
  have hld : ((ent.pos.1 : Int), ent.pos.2 - 1) ≠ (ent.pos.1 + 1, ent.pos.2) := by
    intro h; rw [Prod.ext_iff] at h; omega
  have hru : ((ent.pos.1 : Int), ent.pos.2 + 1) ≠ (ent.pos.1 - 1, ent.pos.2) := by
    intro h; rw [Prod.ext_iff] at h; omega
  have hrd : ((ent.pos.1 : Int), ent.pos.2 + 1) ≠ (ent.pos.1 + 1, ent.pos.2) := by
    intro h; rw [Prod.ext_iff] at h; omega
  have hrl : ((ent.pos.1 : Int), ent.pos.2 + 1) ≠ (ent.pos.1, ent.pos.2 - 1) := by
    intro h; rw [Prod.ext_iff] at h; omega
  simp only [List.mem_cons, List.mem_singleton, List.not_mem_nil] at hq
  rcases hq with hq | hq | hq | hq | hq
  · subst hq
    apply adjCheck_keeps_depleted
    apply adjCheck_keeps_depleted
    apply adjCheck_keeps_depleted
    exact adjCheck_depletes matl _ _ hmatch
  · subst hq
    apply adjCheck_keeps_depleted
    apply adjCheck_keeps_depleted
    apply adjCheck_depletes
    constructor
    · rw [adjCheck_tiles_ne matl true _ _ _ hud]; exact hmatch.1
    constructor
    · rw [adjCheck_tiles_ne matl true _ _ _ hud]; exact hmatch.2.1
    · rw [adjCheck_tiles_ne matl true _ _ _ hud]; exact hmatch.2.2
  · subst hq
    apply adjCheck_keeps_depleted
    apply adjCheck_depletes
    constructor
    · rw [adjCheck_tiles_ne matl true _ _ _ hld,
          adjCheck_tiles_ne matl true _ _ _ hlu]; exact hmatch.1
    constructor
    · rw [adjCheck_tiles_ne matl true _ _ _ hld,
          adjCheck_tiles_ne matl true _ _ _ hlu]; exact hmatch.2.1
    · rw [adjCheck_tiles_ne matl true _ _ _ hld,
          adjCheck_tiles_ne matl true _ _ _ hlu]; exact hmatch.2.2
  · subst hq
    apply adjCheck_depletes
    constructor
    · rw [adjCheck_tiles_ne matl true _ _ _ hrl,
          adjCheck_tiles_ne matl true _ _ _ hrd,
          adjCheck_tiles_ne matl true _ _ _ hru]; exact hmatch.1
    constructor
    · rw [adjCheck_tiles_ne matl true _ _ _ hrl,
          adjCheck_tiles_ne matl true _ _ _ hrd,
          adjCheck_tiles_ne matl true _ _ _ hru]; exact hmatch.2.1
    · rw [adjCheck_tiles_ne matl true _ _ _ hrl,
          adjCheck_tiles_ne matl true _ _ _ hrd,
          adjCheck_tiles_ne matl true _ _ _ hru]; exact hmatch.2.2
  · exact absurd hq (by simp)

/-- The four sequential neighbor checks of harvestAdjacent (up, down,
left, right) threaded through the realm and the dropTable variable. -/
def adjChain (matl : Nat) (d : Bool) (m0 : Realm) (r c : Int) :
    Realm × Option Nat :=
  adjCheck matl d (r, c + 1)
    (adjCheck matl d (r, c - 1)
      (adjCheck matl d (r + 1, c)
        (adjCheck matl d (r - 1, c) (m0, none))))

/-- harvestAdjacent is the four-check chain followed by processing the
final dropTable variable (truthy means success). -/
theorem harvestAdjacent_eq (kind : SkillKind) (cfg : Config)
    (roll : Nat → Nat → List Nat) (realm : Realm) (ent : Entity)
    (sk : SkillState) (matl : Nat) (d : Bool) :
    harvestAdjacent kind cfg roll realm ent sk matl d
      = (match (adjChain matl d realm ent.pos.1 ent.pos.2).2 with
         | some lootT =>
           (true, (adjChain matl d realm ent.pos.1 ent.pos.2).1,
            (processDrops kind cfg roll ent sk matl lootT).1,
            (processDrops kind cfg roll ent sk matl lootT).2)
         | none =>
           (false, (adjChain matl d realm ent.pos.1 ent.pos.2).1, ent, sk)) :=
  rfl

/-- The dropTable variable after the four checks holds the loot table
of the LAST neighbor whose material matches: each later match
overwrites the variable, and a non-matching check is a no-op. -/
theorem adjChain_last_match (matl : Nat) (d : Bool) (m0 : Realm)
    (r c : Int) :
    (harvestableMatch m0.map (r, c + 1) matl →
      (adjChain matl d m0 r c).2 = (m0.map.tiles (r, c + 1)).loot)
    ∧ ((m0.map.tiles (r, c + 1)).state ≠ matl →
       harvestableMatch m0.map (r, c - 1) matl →
      (adjChain matl d m0 r c).2 = (m0.map.tiles (r, c - 1)).loot)
    ∧ ((m0.map.tiles (r, c + 1)).state ≠ matl →
       (m0.map.tiles (r, c - 1)).state ≠ matl →
       harvestableMatch m0.map (r + 1, c) matl →
      (adjChain matl d m0 r c).2 = (m0.map.tiles (r + 1, c)).loot)
    ∧ ((m0.map.tiles (r, c + 1)).state ≠ matl →
       (m0.map.tiles (r, c - 1)).state ≠ matl →
       (m0.map.tiles (r + 1, c)).state ≠ matl →
       harvestableMatch m0.map (r - 1, c) matl →
      (adjChain matl d m0 r c).2 = (m0.map.tiles (r - 1, c)).loot) := by
  have hud : ((r : Int) + 1, c) ≠ (r - 1, c) := by
    intro h; rw [Prod.ext_iff] at h; omega
  have hlu : ((r : Int), c - 1) ≠ (r - 1, c) := by
    intro h; rw [Prod.ext_iff] at h; omega
  have hld : ((r : Int), c - 1) ≠ (r + 1, c) := by
    intro h; rw [Prod.ext_iff] at h; omega
  have hru : ((r : Int), c + 1) ≠ (r - 1, c) := by
    intro h; rw [Prod.ext_iff] at h; omega
  have hrd : ((r : Int), c + 1) ≠ (r + 1, c) := by
    intro h; rw [Prod.ext_iff] at h; omega
  have hrl : ((r : Int), c + 1) ≠ (r, c - 1) := by
    intro h; rw [Prod.ext_iff] at h; omega
  have h4eq : ((adjCheck matl d (r, c - 1)
      (adjCheck matl d (r + 1, c)
        (adjCheck matl d (r - 1, c) (m0, none)))).1).map.tiles (r, c + 1)
      = m0.map.tiles (r, c + 1) := by
    rw [adjCheck_tiles_ne matl d _ _ _ hrl,
        adjCheck_tiles_ne matl d _ _ _ hrd,
        adjCheck_tiles_ne matl d _ _ _ hru]
  have h3eq : ((adjCheck matl d (r + 1, c)
      (adjCheck matl d (r - 1, c) (m0, none))).1).map.tiles (r, c - 1)
      = m0.map.tiles (r, c - 1) := by
    rw [adjCheck_tiles_ne matl d _ _ _ hld,
        adjCheck_tiles_ne matl d _ _ _ hlu]
  have h2eq : ((adjCheck matl d (r - 1, c) (m0, none)).1).map.tiles (r + 1, c)
      = m0.map.tiles (r + 1, c) := by
    rw [adjCheck_tiles_ne matl d _ _ _ hud]
  refine ⟨?_, ?_, ?_, ?_⟩
  · intro hm4
    have hm4' : harvestableMatch ((adjCheck matl d (r, c - 1)
        (adjCheck matl d (r + 1, c)
          (adjCheck matl d (r - 1, c) (m0, none)))).1).map (r, c + 1) matl := by
      unfold harvestableMatch at hm4 ⊢
      rw [h4eq]
      exact hm4
    unfold adjChain
    rw [adjCheck_match_loot matl d _ _ hm4', h4eq]
  · intro hs4 hm3
    have hm3' : harvestableMatch ((adjCheck matl d (r + 1, c)
        (adjCheck matl d (r - 1, c) (m0, none))).1).map (r, c - 1) matl := by
      unfold harvestableMatch at hm3 ⊢
      rw [h3eq]
      exact hm3
    have hs4' : (((adjCheck matl d (r, c - 1)
        (adjCheck matl d (r + 1, c)
          (adjCheck matl d (r - 1, c) (m0, none)))).1).map.tiles (r, c + 1)).state
        ≠ matl := by
      rw [h4eq]
      exact hs4
    unfold adjChain
    rw [adjCheck_no_match matl d _ _ hs4',
        adjCheck_match_loot matl d _ _ hm3', h3eq]
  · intro hs4 hs3 hm2
    have hm2' : harvestableMatch ((adjCheck matl d (r - 1, c) (m0, none)).1).map
        (r + 1, c) matl := by
      unfold harvestableMatch at hm2 ⊢
      rw [h2eq]
      exact hm2
    have hs3' : (((adjCheck matl d (r + 1, c)
        (adjCheck matl d (r - 1, c) (m0, none))).1).map.tiles (r, c - 1)).state
        ≠ matl := by
      rw [h3eq]
      exact hs3
    have hs4' : (((adjCheck matl d (r, c - 1)
        (adjCheck matl d (r + 1, c)
          (adjCheck matl d (r - 1, c) (m0, none)))).1).map.tiles (r, c + 1)).state
        ≠ matl := by
      rw [h4eq]
      exact hs4
    unfold adjChain
    rw [adjCheck_no_match matl d _ _ hs4']
    rw [adjCheck_no_match matl d _ _ hs3']
    rw [adjCheck_match_loot matl d _ _ hm2', h2eq]
  · intro hs4 hs3 hs2 hm1
    have hm1' : harvestableMatch ((m0, (none : Option Nat)).1).map
        (r - 1, c) matl := hm1
    have hs2' : (((adjCheck matl d (r - 1, c) (m0, none)).1).map.tiles
        (r + 1, c)).state ≠ matl := by
      rw [h2eq]
      exact hs2
    have hs3' : (((adjCheck matl d (r + 1, c)
        (adjCheck matl d (r - 1, c) (m0, none))).1).map.tiles (r, c - 1)).state
        ≠ matl := by
      rw [h3eq]
      exact hs3
    have hs4' : (((adjCheck matl d (r, c - 1)
        (adjCheck matl d (r + 1, c)
          (adjCheck matl d (r - 1, c) (m0, none)))).1).map.tiles (r, c + 1)).state
        ≠ matl := by
      rw [h4eq]
      exact hs4
    unfold adjChain
    rw [adjCheck_no_match matl d _ _ hs4']
    rw [adjCheck_no_match matl d _ _ hs3']
    rw [adjCheck_no_match matl d _ _ hs2']
    exact adjCheck_match_loot matl d _ _ hm1'

/-- The observable outcome that the drop table of loot table l is the
one processed by a harvestAdjacent call: the call succeeds and the
resulting entity and skill state are exactly processDrops applied to l. -/
@[reducible] def processedFrom (kind : SkillKind) (cfg : Config)
    (roll : Nat → Nat → List Nat) (realm : Realm) (ent : Entity)
    (sk : SkillState) (matl : Nat) (d : Bool) (l : Nat) : Prop :=
  (harvestAdjacent kind cfg roll realm ent sk matl d).1 = true
  ∧ (harvestAdjacent kind cfg roll realm ent sk matl d).2.2.1
      = (processDrops kind cfg roll ent sk matl l).1
  ∧ (harvestAdjacent kind cfg roll realm ent sk matl d).2.2.2
      = (processDrops kind cfg roll ent sk matl l).2

/-- C2 (amended): harvestAdjacent checks the four neighbors in the
fixed order up (r-1,c), down (r+1,c), left (r,c-1), right (r,c+1), but
with four INDEPENDENT if-statements rather than first-match-wins: every
neighbor holding a harvestable match is harvested -- for either value
of the deplete flag its loot table is taken (overwriting the dropTable
variable), and when deplete is true the tile is depleted -- and the
drop table processed (drops rolled and deposited, experience granted
for non-survival skills) is the LAST matching neighbor's, stated here
for each neighbor under the condition that no later neighbor holds the
material. -/
theorem harvestAdjacent_matches_last_processed (kind : SkillKind)
    (cfg : Config) (roll : Nat → Nat → List Nat) (realm : Realm)
    (ent : Entity) (sk : SkillState) (matl : Nat) :
    (∀ q ∈ [(ent.pos.1 - 1, ent.pos.2), (ent.pos.1 + 1, ent.pos.2),
            (ent.pos.1, ent.pos.2 - 1), (ent.pos.1, ent.pos.2 + 1)],
       harvestableMatch realm.map q matl →
       (((harvestAdjacent kind cfg roll realm ent sk matl true).2.1).map.tiles q).depleted
         = true)
    ∧ (∀ (d : Bool) (l : Nat),
        harvestableMatch realm.map (ent.pos.1 - 1, ent.pos.2) matl →
        (realm.map.tiles (ent.pos.1 - 1, ent.pos.2)).loot = some l →
        (realm.map.tiles (ent.pos.1 + 1, ent.pos.2)).state ≠ matl →
        (realm.map.tiles (ent.pos.1, ent.pos.2 - 1)).state ≠ matl →
        (realm.map.tiles (ent.pos.1, ent.pos.2 + 1)).state ≠ matl →
        processedFrom kind cfg roll realm ent sk matl d l)
    ∧ (∀ (d : Bool) (l : Nat),
        harvestableMatch realm.map (ent.pos.1 + 1, ent.pos.2) matl →
        (realm.map.tiles (ent.pos.1 + 1, ent.pos.2)).loot = some l →
        (realm.map.tiles (ent.pos.1, ent.pos.2 - 1)).state ≠ matl →
        (realm.map.tiles (ent.pos.1, ent.pos.2 + 1)).state ≠ matl →
        processedFrom kind cfg roll realm ent sk matl d l)
    ∧ (∀ (d : Bool) (l : Nat),
        harvestableMatch realm.map (ent.pos.1, ent.pos.2 - 1) matl →
        (realm.map.tiles (ent.pos.1, ent.pos.2 - 1)).loot = some l →
        (realm.map.tiles (ent.pos.1, ent.pos.2 + 1)).state ≠ matl →
        processedFrom kind cfg roll realm ent sk matl d l)
    ∧ (∀ (d : Bool) (l : Nat),
        harvestableMatch realm.map (ent.pos.1, ent.pos.2 + 1) matl →
        (realm.map.tiles (ent.pos.1, ent.pos.2 + 1)).loot = some l →
        processedFrom kind cfg roll realm ent sk matl d l) := by
  refine ⟨harvestAdjacent_depletes_every_match kind cfg roll realm ent sk matl,
    ?_, ?_, ?_, ?_⟩
  · intro d l hm hl hs2 hs3 hs4
    have hc := (adjChain_last_match matl d realm ent.pos.1 ent.pos.2).2.2.2
      hs4 hs3 hs2 hm
    rw [hl] at hc
    unfold processedFrom
    rw [harvestAdjacent_eq, hc]
    exact ⟨rfl, rfl, rfl⟩
  · intro d l hm hl hs3 hs4
    have hc := (adjChain_last_match matl d realm ent.pos.1 ent.pos.2).2.2.1
      hs4 hs3 hm
    rw [hl] at hc
    unfold processedFrom
    rw [harvestAdjacent_eq, hc]
    exact ⟨rfl, rfl, rfl⟩
  · intro d l hm hl hs4
    have hc := (adjChain_last_match matl d realm ent.pos.1 ent.pos.2).2.1
      hs4 hm
    rw [hl] at hc
    unfold processedFrom
    rw [harvestAdjacent_eq, hc]
    exact ⟨rfl, rfl, rfl⟩
  · intro d l hm hl
    have hc := (adjChain_last_match matl d realm ent.pos.1 ent.pos.2).1 hm
    rw [hl] at hc
    unfold processedFrom
    rw [harvestAdjacent_eq, hc]
    exact ⟨rfl, rfl, rfl⟩

/-- Food.update from nmmo/systems/skill.py: nothing when the resource
system is disabled; otherwise first decrement the food pool by the
depletion rate, then attempt a current-tile Forest harvest (depleting);
only on success restore the pool by floor of RESOURCE_BASE times
RESOURCE_HARVEST_RESTORE_FRACTION. -/
def Food.update (cfg : Config) (roll : Nat → Nat → List Nat)
    (realm : Realm) (ent : Entity) (sk : SkillState) :
    Realm × Entity × SkillState :=
  if cfg.RESOURCE_SYSTEM_ENABLED = false then (realm, ent, sk)
  else
    let ent1 := { ent with food := ent.food.decrement cfg.RESOURCE_DEPLETION_RATE }
    let res := skillHarvest SkillKind.food cfg roll realm ent1 sk Material.Forest true
    if res.1 then
      let restore : ℚ :=
        ((cfg.RESOURCE_BASE * cfg.RESOURCE_HARVEST_RESTORE_FRACTION).floor : ℤ)
      (res.2.1, { res.2.2.1 with food := res.2.2.1.food.increment restore }, res.2.2.2)
    else (res.2.1, res.2.2.1, res.2.2.2)

/-- Water.update from nmmo/systems/skill.py: decrement the water pool,
then attempt an adjacent Water harvest with deplete set to false; only
on success restore the pool by the same floored fraction. -/
def Water.update (cfg : Config) (roll : Nat → Nat → List Nat)
    (realm : Realm) (ent : Entity) (sk : SkillState) :
    Realm × Entity × SkillState :=
  if cfg.RESOURCE_SYSTEM_ENABLED = false then (realm, ent, sk)
  else
    let ent1 := { ent with water := ent.water.decrement cfg.RESOURCE_DEPLETION_RATE }
    let res := harvestAdjacent SkillKind.water cfg roll realm ent1 sk Material.WaterM false
    if res.1 then
      let restore : ℚ :=
        ((cfg.RESOURCE_BASE * cfg.RESOURCE_HARVEST_RESTORE_FRACTION).floor : ℤ)
      (res.2.1, { res.2.2.1 with water := res.2.2.1.water.increment restore }, res.2.2.2)
    else (res.2.1, res.2.2.1, res.2.2.2)

/-- A 3-by-3 style map whose up and down neighbors of (1, 1) both hold
harvestable forest. -/
def mapTwoForest : Map :=
  { tiles := fun p => if p = (0, 1) ∨ p = (2, 1) then tileForest else tileGrass
    update_list := []
    pathfinding_cache := [] }

/-- An entity standing at (1, 1) with full-enough pools and free
inventory space. -/
def entMid : Entity :=
  { pos := (1, 1), food := ⟨10, 100⟩, water := ⟨10, 100⟩, held := none,
    invSpace := 5, invItems := [] }

/-- A fresh skill state. -/
def skZero : SkillState := { exp := 0, level := 1 }

/-- A loot-roll oracle returning one item of the loot table's kind. -/
def rollOne : Nat → Nat → List Nat := fun lootT _ => [lootT]

/-- C2 counterexample: with matching harvestable forest both above and
below the entity, the claim says only the first match in the order up,
down, left, right is harvested, and that later matching neighbors are
neither harvested nor depleted.  At this concrete input the call
depletes BOTH the up neighbor (0, 1) and the down neighbor (2, 1) and
registers both in the pending set. -/
theorem harvestAdjacent_depletes_second_match :
    ((mapTwoForest.tiles (0, 1)).state = Material.Forest
      ∧ (mapTwoForest.tiles (2, 1)).state = Material.Forest)
    ∧ (((harvestAdjacent SkillKind.fishing cfgEx rollOne
          { map := mapTwoForest } entMid skZero Material.Forest true).2.1).map.tiles
            (0, 1)).depleted = true
    ∧ (((harvestAdjacent SkillKind.fishing cfgEx rollOne
          { map := mapTwoForest } entMid skZero Material.Forest true).2.1).map.tiles
            (2, 1)).depleted = true
    ∧ (2, 1) ∈ (((harvestAdjacent SkillKind.fishing cfgEx rollOne
          { map := mapTwoForest } entMid skZero Material.Forest true).2.1).map).update_list := by
  refine ⟨⟨by decide, by decide⟩, by decide, by decide, by decide⟩

/-- A forest-like tile carrying the DIFFERENT loot table 9. -/
def tileForest9 : Tile := { tileForest with loot := some 9 }

/-- Up neighbor of (1, 1) holds forest with loot 7, down neighbor holds
forest with loot 9, left and right are grass. -/
def mapTwoLoot : Map :=
  { tiles := fun p =>
      if p = (0, 1) then tileForest
      else if p = (2, 1) then tileForest9
      else tileGrass
    update_list := []
    pathfinding_cache := [] }

/-- Witness for the amended C2 theorem: with matches above (loot 7) and
below (loot 9) the entity, the call succeeds, the drops processed come
from the LAST match's loot table 9 (not the first match's 7), and the
first match is nonetheless harvested and depleted. -/
theorem harvestAdjacent_matches_last_processed_witness :
    (harvestableMatch mapTwoLoot (2, 1) Material.Forest
      ∧ (mapTwoLoot.tiles (2, 1)).loot = some 9
      ∧ (mapTwoLoot.tiles (1, 0)).state ≠ Material.Forest
      ∧ (mapTwoLoot.tiles (1, 2)).state ≠ Material.Forest
      ∧ harvestableMatch mapTwoLoot (0, 1) Material.Forest)
    ∧ (harvestAdjacent SkillKind.fishing cfgEx rollOne { map := mapTwoLoot }
        entMid skZero Material.Forest true).1 = true
    ∧ (harvestAdjacent SkillKind.fishing cfgEx rollOne { map := mapTwoLoot }
        entMid skZero Material.Forest true).2.2.1
      = (processDrops SkillKind.fishing cfgEx rollOne entMid skZero
          Material.Forest 9).1
    ∧ (((harvestAdjacent SkillKind.fishing cfgEx rollOne { map := mapTwoLoot }
        entMid skZero Material.Forest true).2.1).map.tiles (0, 1)).depleted
      = true := by
  have h := harvestAdjacent_matches_last_processed SkillKind.fishing cfgEx
    rollOne { map := mapTwoLoot } entMid skZero Material.Forest
  have hb := h.2.2.1 true 9 (by decide) (by decide) (by decide) (by decide)
  refine ⟨⟨by decide, by decide, by decide, by decide, by decide⟩,
    hb.1, hb.2.1, ?_⟩
  exact h.1 (0, 1) (by decide) (by decide)

/-! C9 support: the survival skills never touch experience, and
processDrops never touches the resource pools. -/

/-- Depositing drops changes only the inventory fields. -/
theorem depositFold_preserves (l : List Nat) (e : Entity) :
    (l.foldl deposit e).food = e.food ∧ (l.foldl deposit e).water = e.water := by
  induction l generalizing e with
  | nil => exact ⟨rfl, rfl⟩
  | cons a l ih =>
    simp only [List.foldl_cons]
    have hd : (deposit e a).food = e.food ∧ (deposit e a).water = e.water := by
      unfold deposit
      by_cases h : 0 < e.invSpace <;> simp [h]
    exact ⟨(ih (deposit e a)).1.trans hd.1, (ih (deposit e a)).2.trans hd.2⟩

/-- processDrops for the survival skills leaves the skill state (and in
particular its experience) unchanged. -/
theorem processDrops_survival_sk (kind : SkillKind)
    (h : kind = SkillKind.food ∨ kind = SkillKind.water) (cfg : Config)
    (roll : Nat → Nat → List Nat) (ent : Entity) (sk : SkillState)
    (matl lootT : Nat) :
    (processDrops kind cfg roll ent sk matl lootT).2 = sk := by
  unfold processDrops
  rcases h with h | h <;> subst h <;> simp

/-- processDrops never changes the resource pools. -/
theorem processDrops_preserves_pools (kind : SkillKind) (cfg : Config)
    (roll : Nat → Nat → List Nat) (ent : Entity) (sk : SkillState)
    (matl lootT : Nat) :
    (processDrops kind cfg roll ent sk matl lootT).1.food = ent.food
    ∧ (processDrops kind cfg roll ent sk matl lootT).1.water = ent.water := by
  unfold processDrops
  exact depositFold_preserves _ ent

/-- A current-tile harvest by a survival skill leaves the skill state
unchanged. -/
theorem skillHarvest_survival_sk (kind : SkillKind)
    (h : kind = SkillKind.food ∨ kind = SkillKind.water) (cfg : Config)
    (roll : Nat → Nat → List Nat) (realm : Realm) (ent : Entity)
    (sk : SkillState) (matl : Nat) (d : Bool) :
    (skillHarvest kind cfg roll realm ent sk matl d).2.2.2 = sk := by
  unfold skillHarvest
  by_cases hs : (realm.map.tiles ent.pos).state ≠ matl
  · simp [hs]
  · simp only [hs, if_false]
    cases hm : (realm.map.harvest ent.pos d).1 <;>
      simp [hm, processDrops_survival_sk kind h]

/-- An adjacent harvest by a survival skill leaves the skill state
unchanged. -/
theorem harvestAdjacent_survival_sk (kind : SkillKind)
    (h : kind = SkillKind.food ∨ kind = SkillKind.water) (cfg : Config)
    (roll : Nat → Nat → List Nat) (realm : Realm) (ent : Entity)
    (sk : SkillState) (matl : Nat) (d : Bool) :
    (harvestAdjacent kind cfg roll realm ent sk matl d).2.2.2 = sk := by
  unfold harvestAdjacent
  cases hm : (adjCheck matl d (ent.pos.1, ent.pos.2 + 1)
      (adjCheck matl d (ent.pos.1, ent.pos.2 - 1)
        (adjCheck matl d (ent.pos.1 + 1, ent.pos.2)
          (adjCheck matl d (ent.pos.1 - 1, ent.pos.2) (realm, none))))).2 <;>
    simp [hm, processDrops_survival_sk kind h]

/-- A current-tile harvest that fails its material check returns
everything unchanged with a false flag. -/
theorem skillHarvest_no_match (kind : SkillKind) (cfg : Config)
    (roll : Nat → Nat → List Nat) (realm : Realm) (ent : Entity)
    (sk : SkillState) (matl : Nat) (d : Bool)
    (hs : (realm.map.tiles ent.pos).state ≠ matl) :
    skillHarvest kind cfg roll realm ent sk matl d = (false, realm, ent, sk) := by
  unfold skillHarvest
  simp [hs]

/-- A successful current-tile harvest routes the entity through
processDrops, which leaves the resource pools untouched. -/
theorem skillHarvest_pools (kind : SkillKind) (cfg : Config)
    (roll : Nat → Nat → List Nat) (realm : Realm) (ent : Entity)
    (sk : SkillState) (matl : Nat) (d : Bool) :
    (skillHarvest kind cfg roll realm ent sk matl d).2.2.1.food = ent.food
    ∧ (skillHarvest kind cfg roll realm ent sk matl d).2.2.1.water = ent.water := by
  unfold skillHarvest
  by_cases hs : (realm.map.tiles ent.pos).state ≠ matl
  · simp [hs]
  · simp only [hs, if_false]
    cases hm : (realm.map.harvest ent.pos d).1 <;>
      simp [hm, processDrops_preserves_pools kind cfg roll ent sk matl]

/-- An adjacent harvest never changes the resource pools (the entity is
only threaded through processDrops, which touches the inventory). -/
theorem harvestAdjacent_pools (kind : SkillKind) (cfg : Config)
    (roll : Nat → Nat → List Nat) (realm : Realm) (ent : Entity)
    (sk : SkillState) (matl : Nat) (d : Bool) :
    (harvestAdjacent kind cfg roll realm ent sk matl d).2.2.1.food = ent.food
    ∧ (harvestAdjacent kind cfg roll realm ent sk matl d).2.2.1.water = ent.water := by
  unfold harvestAdjacent
  cases hm : (adjCheck matl d (ent.pos.1, ent.pos.2 + 1)
      (adjCheck matl d (ent.pos.1, ent.pos.2 - 1)
        (adjCheck matl d (ent.pos.1 + 1, ent.pos.2)
          (adjCheck matl d (ent.pos.1 - 1, ent.pos.2) (realm, none))))).2 <;>
    simp [hm, processDrops_preserves_pools kind cfg roll ent sk matl]

/-- C9 (amended): when the resource system is enabled, every Food and
every Water skill update leaves the skill's experience exactly
unchanged, whatever the harvest outcome; each update first decrements
its pool by the depletion rate, clamped at zero (the pool is a bounded
level), and restores the pool by floor(RESOURCE_BASE *
RESOURCE_HARVEST_RESTORE_FRACTION), clamped at the pool maximum,
EXACTLY WHEN its harvest succeeds: on success the pool ends at the
clamped restored value, and on any failed harvest (in particular a tick
with no matching forest tile, stated separately) the pool ends at
max 0 (pool - rate) -- a strict decrease by exactly the depletion rate
whenever the pool held at least that much. -/
theorem food_water_update_two_phase (cfg : Config)
    (roll : Nat → Nat → List Nat) (realm : Realm) (ent : Entity)
    (sk : SkillState) (hen : cfg.RESOURCE_SYSTEM_ENABLED = true) :
    ((Food.update cfg roll realm ent sk).2.2).exp = sk.exp
    ∧ ((Water.update cfg roll realm ent sk).2.2).exp = sk.exp
    ∧ ((realm.map.tiles ent.pos).state ≠ Material.Forest →
        ((Food.update cfg roll realm ent sk).2.1).food.val
          = max 0 (ent.food.val - cfg.RESOURCE_DEPLETION_RATE))
    ∧ ((skillHarvest SkillKind.food cfg roll realm
          { ent with food := ent.food.decrement cfg.RESOURCE_DEPLETION_RATE }
          sk Material.Forest true).1 = true →
        ((Food.update cfg roll realm ent sk).2.1).food.val
          = min ent.food.maxVal
              (max 0 (ent.food.val - cfg.RESOURCE_DEPLETION_RATE)
                + ((cfg.RESOURCE_BASE * cfg.RESOURCE_HARVEST_RESTORE_FRACTION).floor : ℤ)))
    ∧ ((skillHarvest SkillKind.food cfg roll realm
          { ent with food := ent.food.decrement cfg.RESOURCE_DEPLETION_RATE }
          sk Material.Forest true).1 = false →
        ((Food.update cfg roll realm ent sk).2.1).food.val
          = max 0 (ent.food.val - cfg.RESOURCE_DEPLETION_RATE))
    ∧ ((harvestAdjacent SkillKind.water cfg roll realm
          { ent with water := ent.water.decrement cfg.RESOURCE_DEPLETION_RATE }
          sk Material.WaterM false).1 = true →
        ((Water.update cfg roll realm ent sk).2.1).water.val
          = min ent.water.maxVal
              (max 0 (ent.water.val - cfg.RESOURCE_DEPLETION_RATE)
                + ((cfg.RESOURCE_BASE * cfg.RESOURCE_HARVEST_RESTORE_FRACTION).floor : ℤ)))
    ∧ ((harvestAdjacent SkillKind.water cfg roll realm
          { ent with water := ent.water.decrement cfg.RESOURCE_DEPLETION_RATE }
          sk Material.WaterM false).1 = false →
        ((Water.update cfg roll realm ent sk).2.1).water.val
          = max 0 (ent.water.val - cfg.RESOURCE_DEPLETION_RATE)) := by
  have hen' : ¬ (cfg.RESOURCE_SYSTEM_ENABLED = false) := by simp [hen]
  refine ⟨?_, ?_, ?_, ?_, ?_, ?_, ?_⟩
  · unfold Food.update
    simp only [hen', if_false]
    by_cases hres : (skillHarvest SkillKind.food cfg roll realm
        { ent with food := ent.food.decrement cfg.RESOURCE_DEPLETION_RATE }
        sk Material.Forest true).1 = true <;>
      simp [hres, skillHarvest_survival_sk SkillKind.food (Or.inl rfl)]
  · unfold Water.update
    simp only [hen', if_false]
    by_cases hres : (harvestAdjacent SkillKind.water cfg roll realm
        { ent with water := ent.water.decrement cfg.RESOURCE_DEPLETION_RATE }
        sk Material.WaterM false).1 = true <;>
      simp [hres, harvestAdjacent_survival_sk SkillKind.water (Or.inr rfl)]
  · intro hs
    unfold Food.update
    simp only [hen', if_false]
    rw [skillHarvest_no_match SkillKind.food cfg roll realm
      { ent with food := ent.food.decrement cfg.RESOURCE_DEPLETION_RATE }
      sk Material.Forest true hs]
    simp [Resource.decrement]
  · intro hsucc
    unfold Food.update
    simp only [hen', if_false]
    simp only [hsucc, if_true]
    have hp := skillHarvest_pools SkillKind.food cfg roll realm
      { ent with food := ent.food.decrement cfg.RESOURCE_DEPLETION_RATE }
      sk Material.Forest true
    rw [hp.1]
    simp [Resource.increment, Resource.decrement]
  · intro hres
    unfold Food.update
    rw [if_neg hen']
    simp only []
    have hneg : ¬ ((skillHarvest SkillKind.food cfg roll realm
        { ent with food := ent.food.decrement cfg.RESOURCE_DEPLETION_RATE }
        sk Material.Forest true).1 = true) := by
      rw [hres]
      exact Bool.false_ne_true
    rw [if_neg hneg]
    have hp := skillHarvest_pools SkillKind.food cfg roll realm
      { ent with food := ent.food.decrement cfg.RESOURCE_DEPLETION_RATE }
      sk Material.Forest true
    rw [hp.1]
    simp [Resource.decrement]
  · intro hsucc
    unfold Water.update
    simp only [hen', if_false]
    simp only [hsucc, if_true]
    have hp := harvestAdjacent_pools SkillKind.water cfg roll realm
      { ent with water := ent.water.decrement cfg.RESOURCE_DEPLETION_RATE }
      sk Material.WaterM false
    rw [hp.2]
    simp [Resource.increment, Resource.decrement]
  · intro hres
    unfold Water.update
    rw [if_neg hen']
    simp only []
    have hneg : ¬ ((harvestAdjacent SkillKind.water cfg roll realm
        { ent with water := ent.water.decrement cfg.RESOURCE_DEPLETION_RATE }
        sk Material.WaterM false).1 = true) := by
      rw [hres]
      exact Bool.false_ne_true
    rw [if_neg hneg]
    have hp := harvestAdjacent_pools SkillKind.water cfg roll realm
      { ent with water := ent.water.decrement cfg.RESOURCE_DEPLETION_RATE }
      sk Material.WaterM false
    rw [hp.2]
    simp [Resource.decrement]

/-- An entity whose food pool (3 units) holds less than the depletion
rate (5 units), standing on grass. -/
def entLow : Entity :=
  { pos := (1, 1), food := ⟨3, 100⟩, water := ⟨3, 100⟩, held := none,
    invSpace := 1, invItems := [] }

/-- C9 counterexample: the claim says that on a tick with no matching
forest tile the food resource strictly decreases by exactly the
configured depletion rate.  With the pool at 3 and the rate at 5 the
bounded pool clamps at zero: the pool ends at 0, not at 3 - 5, so the
decrease is not by exactly the depletion rate. -/
theorem food_update_clamps_at_zero :
    ((mapStale.tiles entLow.pos).state ≠ Material.Forest
      ∧ cfgEx.RESOURCE_SYSTEM_ENABLED = true)
    ∧ (Food.update cfgEx rollOne { map := mapStale } entLow skZero).2.1.food.val = 0
    ∧ (Food.update cfgEx rollOne { map := mapStale } entLow skZero).2.1.food.val
        ≠ entLow.food.val - cfgEx.RESOURCE_DEPLETION_RATE
    ∧ (Food.update cfgEx rollOne { map := mapStale } entLow skZero).2.2.exp
        = skZero.exp := by
  have hstate : (({ map := mapStale } : Realm).map.tiles
      (({ entLow with food := entLow.food.decrement cfgEx.RESOURCE_DEPLETION_RATE } : Entity)).pos).state
        ≠ Material.Forest := by
    decide
  have hsk := skillHarvest_no_match SkillKind.food cfgEx rollOne
    { map := mapStale }
    { entLow with food := entLow.food.decrement cfgEx.RESOURCE_DEPLETION_RATE }
    skZero Material.Forest true hstate
  have hupd : Food.update cfgEx rollOne { map := mapStale } entLow skZero
      = ({ map := mapStale },
         { entLow with food := entLow.food.decrement cfgEx.RESOURCE_DEPLETION_RATE },
         skZero) := by
    unfold Food.update
    rw [if_neg (by decide : ¬ (cfgEx.RESOURCE_SYSTEM_ENABLED = false))]
    simp only []
    rw [hsk]
    rfl
  have hle : (3 : ℚ) - 5 ≤ 0 := by norm_num
  refine ⟨⟨by decide, by decide⟩, ?_, ?_, ?_⟩
  · rw [hupd]
    show max (0 : ℚ) (3 - 5) = 0
    rw [max_eq_left hle]
  · rw [hupd]
    show max (0 : ℚ) (3 - 5) ≠ 3 - 5
    rw [max_eq_left hle]
    norm_num
  · rw [hupd]

/-- Witness for the amended C9 theorem: on the all-grass map both
harvests fail, both pools end at max 0 (10 - 5), and neither skill's
experience changes. -/
theorem food_water_update_two_phase_witness :
    cfgEx.RESOURCE_SYSTEM_ENABLED = true
    ∧ (mapStale.tiles entMid.pos).state ≠ Material.Forest
    ∧ (Food.update cfgEx rollOne { map := mapStale } entMid skZero).2.2.exp
        = skZero.exp
    ∧ (Water.update cfgEx rollOne { map := mapStale } entMid skZero).2.2.exp
        = skZero.exp
    ∧ (Food.update cfgEx rollOne { map := mapStale } entMid skZero).2.1.food.val
        = max 0 (entMid.food.val - cfgEx.RESOURCE_DEPLETION_RATE)
    ∧ (Water.update cfgEx rollOne { map := mapStale } entMid skZero).2.1.water.val
        = max 0 (entMid.water.val - cfgEx.RESOURCE_DEPLETION_RATE) := by
  have h := food_water_update_two_phase cfgEx rollOne { map := mapStale }
    entMid skZero (by decide)
  exact ⟨by decide, by decide, h.1, h.2.1, h.2.2.1 (by decide),
    h.2.2.2.2.2.2 (by decide)⟩

/-! Entity groups (nmmo/entity/entity_manager.py). -/

/-- An entity as seen by the group manager: id, alive flag, position,
the danger value recorded at its spawn, and its inventory items. -/
structure GEnt where
  id : Int
  alive : Bool
  pos : Pos
  danger : Int
  items : List Nat
deriving DecidableEq

/-- EntityGroup: the insertion-ordered id-to-entity mapping (as the
ordered list of entities) and the dead_this_tick mapping. -/
structure EntityGroup where
  entities : List GEnt
  dead_this_tick : List GEnt

/-- One iteration of EntityGroup.cull over the frozen id list: an alive
entity is skipped; a dead one is recorded in dead_this_tick, its tile
occupancy freed, and its id deleted from the live mapping. -/
def cullBody (acc : EntityGroup × Map) (e : GEnt) : EntityGroup × Map :=
  if e.alive then acc
  else
    ({ entities := acc.1.entities.filter (fun x => x.id ≠ e.id)
       dead_this_tick := acc.1.dead_this_tick ++ [e] },
     { acc.2 with
        tiles := updateTile acc.2.tiles e.pos
          ((acc.2.tiles e.pos).remove_entity e.id) })

/-- EntityGroup.cull from nmmo/entity/entity_manager.py: rebuild
dead_this_tick to empty, then scan the (frozen) entity list once,
partitioning alive from dead. -/
def EntityGroup.cull (g : EntityGroup) (m : Map) : EntityGroup × Map :=
  g.entities.foldl cullBody ({ g with dead_this_tick := [] }, m)

/-- cullBody on an alive entity is the identity. -/
theorem cullBody_alive (acc : EntityGroup × Map) (e : GEnt)
    (h : e.alive = true) : cullBody acc e = acc := by
  unfold cullBody
  simp [h]

/-- cullBody on a dead entity: the tile grid after freeing occupancy. -/
theorem cullBody_dead_tiles (acc : EntityGroup × Map) (e : GEnt)
    (h : e.alive = false) :
    (cullBody acc e).2.tiles
      = updateTile acc.2.tiles e.pos ((acc.2.tiles e.pos).remove_entity e.id) := by
  unfold cullBody
  simp [h]

/-- cullBody on a dead entity: the id is deleted from the live map. -/
theorem cullBody_dead_entities (acc : EntityGroup × Map) (e : GEnt)
    (h : e.alive = false) :
    (cullBody acc e).1.entities
      = acc.1.entities.filter (fun x => x.id ≠ e.id) := by
  unfold cullBody
  simp [h]

/-- cullBody on a dead entity: the entity is appended to the dead map. -/
theorem cullBody_dead_dead (acc : EntityGroup × Map) (e : GEnt)
    (h : e.alive = false) :
    (cullBody acc e).1.dead_this_tick = acc.1.dead_this_tick ++ [e] := by
  unfold cullBody
  simp [h]

/-- The dead_this_tick component of the cull fold: the accumulated dead
plus, in scan order, every dead entity of the iterated list. -/
theorem cull_fold_dead (L : List GEnt) (acc : EntityGroup × Map) :
    (L.foldl cullBody acc).1.dead_this_tick
      = acc.1.dead_this_tick ++ L.filter (fun e => !e.alive) := by
  induction L generalizing acc with
  | nil => simp
  | cons a L ih =>
    simp only [List.foldl_cons, List.filter_cons]
    cases ha : a.alive
    · rw [ih, cullBody_dead_dead acc a ha]
      simp
    · rw [ih, cullBody_alive acc a ha]
      simp

/-- The entities component of the cull fold: the accumulated entities
minus every id that the iterated list reports dead. -/
theorem cull_fold_entities (L : List GEnt) (acc : EntityGroup × Map) :
    (L.foldl cullBody acc).1.entities
      = acc.1.entities.filter
          (fun x => decide (∀ e ∈ L, e.alive = false → x.id ≠ e.id)) := by
  induction L generalizing acc with
  | nil => simp
  | cons a L ih =>
    simp only [List.foldl_cons]
    rw [ih]
    cases ha : a.alive
    · rw [cullBody_dead_entities acc a ha, List.filter_filter]
      apply List.filter_congr
      intro x _
      by_cases hxa : x.id = a.id
      · have hnot : ¬ (∀ e ∈ a :: L, e.alive = false → x.id ≠ e.id) :=
          fun hall => hall a (List.mem_cons_self a L) ha hxa
        rw [decide_eq_false hnot]
        simp [hxa]
      · have hiff : (∀ e ∈ a :: L, e.alive = false → x.id ≠ e.id)
            ↔ (∀ e ∈ L, e.alive = false → x.id ≠ e.id) := by
          constructor
          · intro h e he
            exact h e (List.mem_cons_of_mem a he)
          · intro h e he
            rcases List.mem_cons.mp he with rfl | he'
            · intro _
              exact hxa
            · exact h e he'
        have hd : decide (∀ e ∈ a :: L, e.alive = false → x.id ≠ e.id)
            = decide (∀ e ∈ L, e.alive = false → x.id ≠ e.id) :=
          decide_eq_decide.mpr hiff
        rw [hd]
        simp [hxa]
    · rw [cullBody_alive acc a ha]
      apply List.filter_congr
      intro x _
      apply decide_eq_decide.mpr
      constructor
      · intro h e he
        rcases List.mem_cons.mp he with rfl | he'
        · intro hdead
          rw [ha] at hdead
          cases hdead
        · exact h e he'
      · intro h e he
        exact h e (List.mem_cons_of_mem a he)

/-- The cull fold never adds an id to any tile's occupancy. -/
theorem cull_fold_occupancy_mono (L : List GEnt) (acc : EntityGroup × Map)
    (q : Pos) (i : Int) (h : i ∉ (acc.2.tiles q).ents) :
    i ∉ ((L.foldl cullBody acc).2.tiles q).ents := by
  induction L generalizing acc with
  | nil => exact h
  | cons a L ih =>
    simp only [List.foldl_cons]
    apply ih
    cases ha : a.alive
    · rw [cullBody_dead_tiles acc a ha]
      unfold updateTile
      by_cases hq : q = a.pos
      · subst hq
        simp only [if_pos rfl, Tile.remove_entity]
        intro hmem
        exact h (List.mem_of_mem_filter hmem)
      · simpa [hq] using h
    · rw [cullBody_alive acc a ha]
      exact h

/-- Every dead entity of the iterated list has its id freed from its
tile by the cull fold. -/
theorem cull_fold_frees_dead (L : List GEnt) (acc : EntityGroup × Map) :
    ∀ e ∈ L, e.alive = false →
      e.id ∉ ((L.foldl cullBody acc).2.tiles e.pos).ents := by
  induction L generalizing acc with
  | nil =>
    intro e he
    cases he
  | cons a L ih =>
    intro e he hdead
    rcases List.mem_cons.mp he with rfl | he'
    · simp only [List.foldl_cons]
      apply cull_fold_occupancy_mono
      rw [cullBody_dead_tiles acc e hdead]
      unfold updateTile
      simp only [if_pos rfl, Tile.remove_entity]
      intro hmem
      have hd := (List.mem_filter.mp hmem).2
      simp at hd
    · simp only [List.foldl_cons]
      exact ih (cullBody acc a) e he' hdead

/-- C5: after EntityGroup.cull, dead_this_tick is exactly the set of
registered entities whose alive flag is false at the scan (regardless of
its prior contents), those entities are removed from the live mapping
and their tile occupancy freed, and with no dead entity dead_this_tick
comes back empty. -/
theorem cull_exact (g : EntityGroup) (m : Map)
    (hid : (g.entities.map (fun e => e.id)).Nodup) :
    (g.cull m).1.dead_this_tick = g.entities.filter (fun e => !e.alive)
    ∧ (g.cull m).1.entities = g.entities.filter (fun e => e.alive)
    ∧ (∀ e ∈ g.entities, e.alive = false →
        e.id ∉ (((g.cull m).2).tiles e.pos).ents)
    ∧ ((∀ e ∈ g.entities, e.alive = true) → (g.cull m).1.dead_this_tick = []) := by
  have hinj := List.inj_on_of_nodup_map hid
  refine ⟨?_, ?_, ?_, ?_⟩
  · unfold EntityGroup.cull
    rw [cull_fold_dead]
    rfl
  · unfold EntityGroup.cull
    rw [cull_fold_entities]
    apply List.filter_congr
    intro x hx
    cases hxa : x.alive
    · apply decide_eq_false
      intro hall
      exact hall x hx hxa rfl
    · apply decide_eq_true
      intro e he hdead hxe
      have hxeq := hinj hx he hxe
      subst hxeq
      rw [hxa] at hdead
      simp at hdead
  · intro e he hdead
    unfold EntityGroup.cull
    exact cull_fold_frees_dead g.entities _ e he hdead
  · intro hall
    unfold EntityGroup.cull
    rw [cull_fold_dead]
    simp only [List.nil_append]
    apply List.filter_eq_nil_iff.mpr
    intro e he
    simp [hall e he]

/-- A two-entity group: entity 1 alive at (0, 0), entity 2 dead at
(1, 1); the map records both occupancies. -/
def groupEx : EntityGroup :=
  { entities :=
      [{ id := 1, alive := true, pos := (0, 0), danger := 0, items := [] },
       { id := 2, alive := false, pos := (1, 1), danger := 3, items := [5] }]
    dead_this_tick :=
      [{ id := 9, alive := false, pos := (2, 2), danger := 0, items := [] }] }

/-- The map occupied by groupEx. -/
def mapOccupied : Map :=
  { tiles := fun p =>
      if p = (0, 0) then { tileGrass with ents := [1] }
      else if p = (1, 1) then { tileGrass with ents := [2] }
      else tileGrass
    update_list := []
    pathfinding_cache := [] }

/-- Witness for C5: culling groupEx leaves exactly the dead entity 2 in
dead_this_tick (the stale prior contents are discarded), keeps exactly
entity 1 live, and frees entity 2's tile occupancy. -/
theorem cull_exact_witness :
    (groupEx.entities.map (fun e => e.id)).Nodup
    ∧ (groupEx.cull mapOccupied).1.dead_this_tick
        = groupEx.entities.filter (fun e => !e.alive)
    ∧ (groupEx.cull mapOccupied).1.entities
        = groupEx.entities.filter (fun e => e.alive)
    ∧ (2 : Int) ∉ (((groupEx.cull mapOccupied).2).tiles (1, 1)).ents := by
  have h := cull_exact groupEx mapOccupied (by decide)
  refine ⟨by decide, h.1, h.2.1, ?_⟩
  exact h.2.2.1 { id := 2, alive := false, pos := (1, 1), danger := 3, items := [5] }
    (by decide) (by decide)

/-! NPCManager.spawn (nmmo/entity/entity_manager.py). -/

/-- Where an NPC placement's position came from: the danger-biased
combat spawn (with the danger value used) or the uniform draw inside
the play area. -/
inductive SpawnSrc where
  | danger (d : Int)
  | uniform
deriving DecidableEq

/-- One NPC placement made during a spawn call. -/
structure Placement where
  pos : Pos
  src : SpawnSrc
  id : Int
deriving DecidableEq

/-- NPCManager state: live npc ids, the next id to assign, and the LIFO
danger stack (python list: the top is the LAST element; append pushes,
pop removes the last). -/
structure NPCState where
  entities : List Int
  next_id : Int
  spawn_dangers : List Int
deriving DecidableEq

/-- The attempt loop of NPCManager.spawn: up to NPC_SPAWN_ATTEMPTS
iterations, stopping once the population reaches NPC_N.  Each iteration
reads the CURRENT TOP of the danger stack (never popping inside the
loop) and asks the external combat collaborator for a position, or, with
an empty stack, consumes one uniform random draw; the external NPC
constructor (npcOk) may reject the placement.  Successful placements
append the next id and decrement it. -/
def spawnLoop (cfg : Config) (combatSpawn : Int → Pos) (rng : Nat → Pos)
    (npcOk : Pos → Int → Bool) :
    Nat → Nat → NPCState → List Placement → NPCState × List Placement × Nat
  | 0, ri, st, log => (st, log, ri)
  | n + 1, ri, st, log =>
    if cfg.NPC_N ≤ st.entities.length then (st, log, ri)
    else
      match st.spawn_dangers.getLast? with
      | some d =>
        let pos := combatSpawn d
        if npcOk pos st.next_id then
          spawnLoop cfg combatSpawn rng npcOk n ri
            { st with entities := st.entities ++ [st.next_id],
                      next_id := st.next_id - 1 }
            (log ++ [{ pos := pos, src := SpawnSrc.danger d, id := st.next_id }])
        else spawnLoop cfg combatSpawn rng npcOk n ri st log
      | none =>
        let pos := rng ri
        if npcOk pos st.next_id then
          spawnLoop cfg combatSpawn rng npcOk n (ri + 1)
            { st with entities := st.entities ++ [st.next_id],
                      next_id := st.next_id - 1 }
            (log ++ [{ pos := pos, src := SpawnSrc.uniform, id := st.next_id }])
        else spawnLoop cfg combatSpawn rng npcOk n (ri + 1) st log

/-- NPCManager.spawn from nmmo/entity/entity_manager.py: nothing when
the NPC system is disabled; otherwise run the attempt loop, and then --
AFTER the loop, exactly once per call -- pop the danger stack if it is
non-empty, whether or not any placement was made. -/
def NPCManager.spawn (cfg : Config) (combatSpawn : Int → Pos)
    (rng : Nat → Pos) (npcOk : Pos → Int → Bool) (st : NPCState) :
    NPCState × List Placement :=
  if cfg.NPC_SYSTEM_ENABLED = false then (st, [])
  else
    let r := spawnLoop cfg combatSpawn rng npcOk cfg.NPC_SPAWN_ATTEMPTS 0 st []
    if r.1.spawn_dangers.isEmpty then (r.1, r.2.1)
    else ({ r.1 with spawn_dangers := r.1.spawn_dangers.dropLast }, r.2.1)

/-- The attempt loop never touches the danger stack. -/
theorem spawnLoop_dangers (cfg : Config) (combatSpawn : Int → Pos)
    (rng : Nat → Pos) (npcOk : Pos → Int → Bool) (n ri : Nat)
    (st : NPCState) (log : List Placement) :
    (spawnLoop cfg combatSpawn rng npcOk n ri st log).1.spawn_dangers
      = st.spawn_dangers := by
  induction n generalizing ri st log with
  | zero => rfl
  | succ n ih =>
    unfold spawnLoop
    split
    · rfl
    · split
      · simp only []
        split
        · rw [ih]
        · rw [ih]
      · simp only []
        split
        · rw [ih]
        · rw [ih]

/-- Every placement logged by the attempt loop (beyond the input log)
draws its position source from the stack top at entry (which the loop
never changes), or from the uniform draw when the stack is empty. -/
theorem spawnLoop_src (cfg : Config) (combatSpawn : Int → Pos)
    (rng : Nat → Pos) (npcOk : Pos → Int → Bool) (n ri : Nat)
    (st : NPCState) (log : List Placement) :
    ∀ pl ∈ (spawnLoop cfg combatSpawn rng npcOk n ri st log).2.1,
      pl ∈ log ∨ pl.src = (match st.spawn_dangers.getLast? with
        | some d => SpawnSrc.danger d
        | none => SpawnSrc.uniform) := by
  induction n generalizing ri st log with
  | zero =>
    intro pl hpl
    exact Or.inl hpl
  | succ n ih =>
    intro pl hpl
    unfold spawnLoop at hpl
    by_cases hfull : cfg.NPC_N ≤ st.entities.length
    · rw [if_pos hfull] at hpl
      exact Or.inl hpl
    · rw [if_neg hfull] at hpl
      cases hd : st.spawn_dangers.getLast? with
      | some d =>
        rw [hd] at hpl
        simp only [] at hpl
        show pl ∈ log ∨ pl.src = SpawnSrc.danger d
        by_cases hok : npcOk (combatSpawn d) st.next_id = true
        · rw [if_pos hok] at hpl
          rcases ih ri _ _ pl hpl with hin | hsrc
          · rcases List.mem_append.mp hin with hin' | hin'
            · exact Or.inl hin'
            · right
              rw [List.mem_singleton.mp hin']
          · right
            have hsrc' : pl.src = (match st.spawn_dangers.getLast? with
                | some d => SpawnSrc.danger d
                | none => SpawnSrc.uniform) := hsrc
            rw [hd] at hsrc'
            exact hsrc'
        · rw [if_neg hok] at hpl
          rcases ih ri st log pl hpl with hin | hsrc
          · exact Or.inl hin
          · right
            have hsrc' : pl.src = (match st.spawn_dangers.getLast? with
                | some d => SpawnSrc.danger d
                | none => SpawnSrc.uniform) := hsrc
            rw [hd] at hsrc'
            exact hsrc'
      | none =>
        rw [hd] at hpl
        simp only [] at hpl
        show pl ∈ log ∨ pl.src = SpawnSrc.uniform
        by_cases hok : npcOk (rng ri) st.next_id = true
        · rw [if_pos hok] at hpl
          rcases ih (ri + 1) _ _ pl hpl with hin | hsrc
          · rcases List.mem_append.mp hin with hin' | hin'
            · exact Or.inl hin'
            · right
              rw [List.mem_singleton.mp hin']
          · right
            have hsrc' : pl.src = (match st.spawn_dangers.getLast? with
                | some d => SpawnSrc.danger d
                | none => SpawnSrc.uniform) := hsrc
            rw [hd] at hsrc'
            exact hsrc'
        · rw [if_neg hok] at hpl
          rcases ih (ri + 1) st log pl hpl with hin | hsrc
          · exact Or.inl hin
          · right
            have hsrc' : pl.src = (match st.spawn_dangers.getLast? with
                | some d => SpawnSrc.danger d
                | none => SpawnSrc.uniform) := hsrc
            rw [hd] at hsrc'
            exact hsrc'

/-- C4 (amended): when the NPC system is enabled, a spawn call never
pops the danger stack per placement; every placement made during the
call is biased by the SAME danger value -- the most recently recorded
one (stack top) as of call entry, which stays on the stack throughout
the loop -- or comes from the uniform draw when the stack is empty; and
exactly one value is popped at the END of the call iff the stack is
non-empty, regardless of how many placements (possibly zero) were
made. -/
theorem npc_spawn_single_pop (cfg : Config) (combatSpawn : Int → Pos)
    (rng : Nat → Pos) (npcOk : Pos → Int → Bool) (st : NPCState)
    (hen : cfg.NPC_SYSTEM_ENABLED = true) :
    ((NPCManager.spawn cfg combatSpawn rng npcOk st).1.spawn_dangers
      = if st.spawn_dangers.isEmpty then st.spawn_dangers
        else st.spawn_dangers.dropLast)
    ∧ (∀ pl ∈ (NPCManager.spawn cfg combatSpawn rng npcOk st).2,
        pl.src = (match st.spawn_dangers.getLast? with
          | some d => SpawnSrc.danger d
          | none => SpawnSrc.uniform)) := by
  have hen' : ¬ (cfg.NPC_SYSTEM_ENABLED = false) := by simp [hen]
  have hdg := spawnLoop_dangers cfg combatSpawn rng npcOk
    cfg.NPC_SPAWN_ATTEMPTS 0 st []
  unfold NPCManager.spawn
  simp only [hen', if_false]
  constructor
  · by_cases he : (spawnLoop cfg combatSpawn rng npcOk
        cfg.NPC_SPAWN_ATTEMPTS 0 st []).1.spawn_dangers.isEmpty = true
    · rw [if_pos he]
      rw [hdg] at he
      rw [if_pos he]
      exact hdg
    · rw [if_neg he]
      rw [hdg] at he
      rw [if_neg he]
      show (spawnLoop cfg combatSpawn rng npcOk
        cfg.NPC_SPAWN_ATTEMPTS 0 st []).1.spawn_dangers.dropLast
          = st.spawn_dangers.dropLast
      rw [hdg]
  · intro pl hpl
    by_cases he : (spawnLoop cfg combatSpawn rng npcOk
        cfg.NPC_SPAWN_ATTEMPTS 0 st []).1.spawn_dangers.isEmpty = true
    · rw [if_pos he] at hpl
      rcases spawnLoop_src cfg combatSpawn rng npcOk
          cfg.NPC_SPAWN_ATTEMPTS 0 st [] pl hpl with hin | hsrc
      · cases hin
      · exact hsrc
    · rw [if_neg he] at hpl
      rcases spawnLoop_src cfg combatSpawn rng npcOk
          cfg.NPC_SPAWN_ATTEMPTS 0 st [] pl hpl with hin | hsrc
      · cases hin
      · exact hsrc

/-- An NPC population already at its target (NPC_N = 1) with one danger
value recorded. -/
def stFull : NPCState :=
  { entities := [-1], next_id := -2, spawn_dangers := [9] }

/-- C4 counterexample: the claim says a danger value is popped from the
stack after it is used for a placement.  With the population already at
target, the spawn call makes NO placement at all (the attempt loop
breaks immediately), yet the danger value 9 is still popped: the stack
goes from [9] to [] with an empty placement list. -/
theorem npc_spawn_pops_without_placement :
    (NPCManager.spawn cfgEx (fun _ => (1, 1)) (fun _ => (1, 1))
        (fun _ _ => true) stFull).2 = []
    ∧ (NPCManager.spawn cfgEx (fun _ => (1, 1)) (fun _ => (1, 1))
        (fun _ _ => true) stFull).1.spawn_dangers = []
    ∧ stFull.spawn_dangers = [9] := by
  refine ⟨by decide, by decide, by decide⟩

/-- Witness for the amended C4 theorem at stFull: the non-empty stack
loses exactly its last element. -/
theorem npc_spawn_single_pop_witness :
    cfgEx.NPC_SYSTEM_ENABLED = true
    ∧ (NPCManager.spawn cfgEx (fun _ => (1, 1)) (fun _ => (1, 1))
        (fun _ _ => true) stFull).1.spawn_dangers
      = (if stFull.spawn_dangers.isEmpty then stFull.spawn_dangers
         else stFull.spawn_dangers.dropLast) :=
  ⟨by decide,
   (npc_spawn_single_pop cfgEx (fun _ => (1, 1)) (fun _ => (1, 1))
     (fun _ _ => true) stFull (by decide)).1⟩

/-! Game-state snapshot and query layer (nmmo/task/game_state.py). -/

/-- A columnar table: rows of integer cells. -/
abbrev Table := List (List Int)

/-- GameStateGenerator._precompute_index: one linear pass mapping each
id to the ascending list of row indices holding that id in the id
column (a defaultdict of appended row numbers; absent ids map to []). -/
def precomputeIndex (table : Table) (idCol : Nat) : Int → List Nat :=
  fun i => (List.range table.length).filter
    (fun r => (table.getD r []).getD idCol 0 = i)

/-- The GameState snapshot of nmmo/task/game_state.py: tick, spawn
positions, alive agents, the per-agent observation bundle, the three
copied columnar tables with their precomputed id indexes, and the
shared memoization cache (an association list keyed by
(table-name, subject)). -/
structure GameState where
  current_tick : Nat
  spawn_pos : List (Int × Pos)
  alive_agents : List Int
  env_obs : List (Int × Nat)
  entity_data : Table
  entity_index : Int → List Nat
  item_data : Table
  item_index : Int → List Nat
  event_data : Table
  event_index : Int → List Nat
  cache_result : List ((String × List Int) × Table)

/-- The rows that a fresh (uncached) where_in_id scan would return: the
concatenation, in subject iteration order, of the indexed rows of each
subject id; [] for an invalid table name. -/
def specRows (gs : GameState) (t : String) (s : List Int) : Table :=
  if t = "entity" then
    ((s.map gs.entity_index).flatten).map (fun r => gs.entity_data.getD r [])
  else if t = "item" then
    ((s.map gs.item_index).flatten).map (fun r => gs.item_data.getD r [])
  else if t = "event" then
    ((s.map gs.event_index).flatten).map (fun r => gs.event_data.getD r [])
  else []

/-- GameState.where_in_id: consult the shared cache first; on a miss
with a valid table name, gather the row indices id by id in subject
order, fetch those rows, memoize under (table, subject), and return;
any other table name raises the InvalidTable ValueError.  (The source
writes three sequential ifs over three distinct names, equivalent to
this chain.)  The third component counts the index scans this call
performed: 0 when served from cache, 1 when computed, mirroring the
spec's call-count probe. -/
def GameState.where_in_id (gs : GameState) (data_type : String)
    (subject : List Int) : Except String (Table × GameState × Nat) :=
  match gs.cache_result.lookup (data_type, subject) with
  | some v => .ok (v, gs, 0)
  | none =>
    if data_type = "entity" then
      let v := ((subject.map gs.entity_index).flatten).map
        (fun r => gs.entity_data.getD r [])
      .ok (v, { gs with cache_result := ((data_type, subject), v) :: gs.cache_result }, 1)
    else if data_type = "item" then
      let v := ((subject.map gs.item_index).flatten).map
        (fun r => gs.item_data.getD r [])
      .ok (v, { gs with cache_result := ((data_type, subject), v) :: gs.cache_result }, 1)
    else if data_type = "event" then
      let v := ((subject.map gs.event_index).flatten).map
        (fun r => gs.event_data.getD r [])
      .ok (v, { gs with cache_result := ((data_type, subject), v) :: gs.cache_result }, 1)
    else .error "data_type must be in entity, item, event"

/-- ArrayView.get_attribute: project one named column of a sub-array. -/
def getAttribute (arr : Table) (col : Nat) : List Int :=
  arr.map (fun row => row.getD col 0)

/-- The live columnar store owned by the simulation (entity, item, and
event tables). -/
structure Store where
  entityTable : Table
  itemTable : Table
  eventTable : Table

/-- GameStateGenerator.generate: copy the three live tables by value,
compute the alive-agent set as the positive entries of the id column of
the copied entity table, build the three id indexes in one pass each,
attach the observation bundle and the episode-start spawn positions, and
start with an empty memoization cache. -/
def GameStateGenerator.generate (tick : Nat) (spawnPos : List (Int × Pos))
    (obs : List (Int × Nat)) (idCol ownerCol entCol : Nat) (st : Store) :
    GameState :=
  { current_tick := tick
    spawn_pos := spawnPos
    alive_agents :=
      ((st.entityTable.map (fun row => row.getD idCol 0)).filter
        (fun i => 0 < i)).dedup
    env_obs := obs
    entity_data := st.entityTable
    entity_index := precomputeIndex st.entityTable idCol
    item_data := st.itemTable
    item_index := precomputeIndex st.itemTable ownerCol
    event_data := st.eventTable
    event_index := precomputeIndex st.eventTable entCol
    cache_result := [] }

/-- The world as the snapshot layer sees it: the live store plus the
snapshots issued so far. -/
structure World where
  store : Store
  snapshots : List GameState

/-- Issue a snapshot of the current live store. -/
def World.generateSnapshot (w : World) (tick : Nat)
    (spawnPos : List (Int × Pos)) (obs : List (Int × Nat))
    (idCol ownerCol entCol : Nat) : World :=
  { w with snapshots := w.snapshots
      ++ [GameStateGenerator.generate tick spawnPos obs idCol ownerCol entCol w.store] }

/-- A later tick mutating the live tables (arbitrary table rewrite). -/
def World.mutateLive (w : World) (f : Store → Store) : World :=
  { w with store := f w.store }

/-- An empty snapshot, used as the out-of-range default of getD. -/
def gsEmpty : GameState :=
  { current_tick := 0, spawn_pos := [], alive_agents := [], env_obs := [],
    entity_data := [], entity_index := fun _ => [],
    item_data := [], item_index := fun _ => [],
    event_data := [], event_index := fun _ => [],
    cache_result := [] }

/-- Live-store mutations never touch issued snapshots. -/
theorem mutate_fold_snapshots (fs : List (Store → Store)) (w : World) :
    (fs.foldl World.mutateLive w).snapshots = w.snapshots := by
  induction fs generalizing w with
  | nil => rfl
  | cons f fs ih => exact ih (w.mutateLive f)

/-- C6: after generate issues a snapshot, any sequence of later
mutations of the live entity, item, or event tables leaves the
already-issued snapshots untouched, and hence every where_in_id query
result, every view field projection, and the alive-agent set of an
issued snapshot read after the mutations coincide with what they were
at issue time.  (In this embedding the generate step captures the table
VALUES, which is exactly what the source's .copy() calls establish: the
snapshot never aliases the live store.) -/
theorem snapshot_immune_to_live_mutation (w : World) (tick : Nat)
    (spawnPos : List (Int × Pos)) (obs : List (Int × Nat))
    (idCol ownerCol entCol : Nat) (fs : List (Store → Store)) :
    ((fs.foldl World.mutateLive
        (w.generateSnapshot tick spawnPos obs idCol ownerCol entCol)).snapshots
      = (w.generateSnapshot tick spawnPos obs idCol ownerCol entCol).snapshots)
    ∧ (∀ i t s,
        (((fs.foldl World.mutateLive
            (w.generateSnapshot tick spawnPos obs idCol ownerCol entCol)).snapshots.getD
              i gsEmpty).where_in_id t s)
          = (((w.generateSnapshot tick spawnPos obs idCol ownerCol
              entCol).snapshots.getD i gsEmpty).where_in_id t s))
    ∧ (∀ i col,
        getAttribute ((fs.foldl World.mutateLive
            (w.generateSnapshot tick spawnPos obs idCol ownerCol
              entCol)).snapshots.getD i gsEmpty).entity_data col
          = getAttribute ((w.generateSnapshot tick spawnPos obs idCol ownerCol
              entCol).snapshots.getD i gsEmpty).entity_data col)
    ∧ (∀ i,
        ((fs.foldl World.mutateLive
            (w.generateSnapshot tick spawnPos obs idCol ownerCol
              entCol)).snapshots.getD i gsEmpty).alive_agents
          = ((w.generateSnapshot tick spawnPos obs idCol ownerCol
              entCol).snapshots.getD i gsEmpty).alive_agents) := by
  have h := mutate_fold_snapshots fs
    (w.generateSnapshot tick spawnPos obs idCol ownerCol entCol)
  refine ⟨h, ?_, ?_, ?_⟩
  · intro i t s
    rw [h]
  · intro i col
    rw [h]
  · intro i
    rw [h]

/-- A successful association-list lookup points at a stored entry. -/
theorem lookup_mem {α β : Type} [BEq α] [LawfulBEq α]
    (l : List (α × β)) (k : α) (v : β) (h : l.lookup k = some v) :
    (k, v) ∈ l := by
  induction l with
  | nil => cases h
  | cons a l ih =>
    obtain ⟨a1, a2⟩ := a
    rw [List.lookup_cons] at h
    cases hak : k == a1
    · rw [hak] at h
      exact List.mem_cons_of_mem _ (ih h)
    · rw [hak] at h
      have hk : k = a1 := eq_of_beq hak
      cases h
      rw [hk]
      exact List.mem_cons_self _ _

/-- The three table names accepted by the query layer. -/
@[reducible] def validTable (t : String) : Prop :=
  t = "entity" ∨ t = "item" ∨ t = "event"

/-- Invariant of the shared memoization cache within one snapshot's
lifetime: every stored entry is a valid-table key mapped to exactly the
rows a fresh scan would produce. -/
def CacheWF (gs : GameState) : Prop :=
  ∀ k v, (k, v) ∈ gs.cache_result → validTable k.1 ∧ v = specRows gs k.1 k.2

/-- A snapshot with an empty cache trivially satisfies the invariant;
generate issues snapshots with an empty cache. -/
theorem cacheWF_of_nil (gs : GameState) (h : gs.cache_result = []) :
    CacheWF gs := by
  intro k v hm
  rw [h] at hm
  cases hm

/-- A cache hit short-circuits where_in_id: the stored rows come back
with no index scan and nothing changes. -/
theorem where_in_id_hit (gs : GameState) (t : String) (s : List Int)
    (v : Table) (hk : gs.cache_result.lookup (t, s) = some v) :
    gs.where_in_id t s = .ok (v, gs, 0) := by
  unfold GameState.where_in_id
  rw [hk]

/-- A cache miss over a valid table name performs one index scan,
returns the fresh rows, and memoizes them under the key. -/
theorem where_in_id_miss_valid (gs : GameState) (t : String) (s : List Int)
    (hk : gs.cache_result.lookup (t, s) = none) (ht : validTable t) :
    gs.where_in_id t s
      = .ok (specRows gs t s,
             { gs with cache_result := ((t, s), specRows gs t s) :: gs.cache_result },
             1) := by
  rcases ht with ht | ht | ht <;> subst ht <;>
    · unfold GameState.where_in_id
      rw [hk]
      simp [specRows]

/-- A cache miss over an invalid table name raises InvalidTable. -/
theorem where_in_id_miss_invalid (gs : GameState) (t : String) (s : List Int)
    (hk : gs.cache_result.lookup (t, s) = none) (ht : ¬ validTable t) :
    gs.where_in_id t s = .error "data_type must be in entity, item, event" := by
  have h1 : ¬ t = "entity" := fun h => ht (Or.inl h)
  have h2 : ¬ t = "item" := fun h => ht (Or.inr (Or.inl h))
  have h3 : ¬ t = "event" := fun h => ht (Or.inr (Or.inr h))
  unfold GameState.where_in_id
  rw [hk]
  simp [h1, h2, h3]

/-- Under the cache invariant, an invalid table name can never be a
cached key. -/
theorem cacheWF_lookup_invalid (gs : GameState) (t : String) (s : List Int)
    (hwf : CacheWF gs) (ht : ¬ validTable t) :
    gs.cache_result.lookup (t, s) = none := by
  cases hk : gs.cache_result.lookup (t, s) with
  | none => rfl
  | some v => exact absurd (hwf (t, s) v (lookup_mem _ _ _ hk)).1 ht

/-- The rows component of a where_in_id result. -/
def wRes (r : Except String (Table × GameState × Nat)) : Table :=
  match r with
  | .ok x => x.1
  | .error _ => []

/-- The updated-snapshot component of a where_in_id result (the input
snapshot when the call raised). -/
def wGs (gs : GameState) (r : Except String (Table × GameState × Nat)) :
    GameState :=
  match r with
  | .ok x => x.2.1
  | .error _ => gs

/-- The index-scan count of a where_in_id result. -/
def wScans (r : Except String (Table × GameState × Nat)) : Nat :=
  match r with
  | .ok x => x.2.2
  | .error _ => 0

/-- The fresh scan produced by a first call is itself recorded
coherently: updating only the cache leaves specRows unchanged. -/
theorem cacheWF_after_miss (gs : GameState) (t : String) (s : List Int)
    (hwf : CacheWF gs) (ht : validTable t) :
    CacheWF { gs with
      cache_result := ((t, s), specRows gs t s) :: gs.cache_result } := by
  intro k v hm
  rcases List.mem_cons.mp hm with he | hm'
  · cases he
    exact ⟨ht, rfl⟩
  · have h := hwf k v hm'
    exact ⟨h.1, h.2⟩

/-- C7: under the per-snapshot cache invariant, where_in_id on a valid
table succeeds; the first call's rows are exactly the concatenation, in
subject order, of the indexed rows of each subject id; a call performs
at most one index scan; repeating the call on the returned snapshot
yields the identical rows, the identical snapshot, and ZERO index scans
(served from the memoization cache); and the invariant is preserved. -/
theorem where_in_id_idempotent_memoized (gs : GameState) (t : String)
    (s : List Int) (hwf : CacheWF gs) (ht : validTable t) :
    (gs.where_in_id t s).isOk = true
    ∧ wRes (gs.where_in_id t s) = specRows gs t s
    ∧ wScans (gs.where_in_id t s) ≤ 1
    ∧ (wGs gs (gs.where_in_id t s)).where_in_id t s
        = .ok (wRes (gs.where_in_id t s), wGs gs (gs.where_in_id t s), 0)
    ∧ CacheWF (wGs gs (gs.where_in_id t s)) := by
  cases hk : gs.cache_result.lookup (t, s) with
  | some v =>
    have hv := hwf (t, s) v (lookup_mem _ _ _ hk)
    rw [where_in_id_hit gs t s v hk]
    refine ⟨rfl, hv.2, by simp [wScans], ?_, hwf⟩
    show gs.where_in_id t s = .ok (v, gs, 0)
    exact where_in_id_hit gs t s v hk
  | none =>
    rw [where_in_id_miss_valid gs t s hk ht]
    refine ⟨rfl, rfl, by simp [wScans], ?_, ?_⟩
    · show ({ gs with cache_result := ((t, s), specRows gs t s)
          :: gs.cache_result } : GameState).where_in_id t s = _
      have hhit : (({ gs with cache_result := ((t, s), specRows gs t s)
          :: gs.cache_result } : GameState)).cache_result.lookup (t, s)
          = some (specRows gs t s) := by
        show (((t, s), specRows gs t s) :: gs.cache_result).lookup (t, s)
          = some (specRows gs t s)
        rw [List.lookup_cons]
        simp
      rw [where_in_id_hit _ t s _ hhit]
      rfl
    · exact cacheWF_after_miss gs t s hwf ht

/-- C8: under the per-snapshot cache invariant, where_in_id raises the
InvalidTable error exactly for table names outside entity, item, event;
on the three valid names it returns normally. -/
theorem where_in_id_invalid_table (gs : GameState) (t : String)
    (s : List Int) (hwf : CacheWF gs) :
    ((gs.where_in_id t s).isOk = true ↔ validTable t)
    ∧ (¬ validTable t →
        gs.where_in_id t s = .error "data_type must be in entity, item, event") := by
  by_cases hv : validTable t
  · constructor
    · constructor
      · intro _
        exact hv
      · intro _
        cases hk : gs.cache_result.lookup (t, s) with
        | some v =>
          rw [where_in_id_hit gs t s v hk]
          rfl
        | none =>
          rw [where_in_id_miss_valid gs t s hk hv]
          rfl
    · intro h
      exact absurd hv h
  · have hk := cacheWF_lookup_invalid gs t s hwf hv
    have herr := where_in_id_miss_invalid gs t s hk hv
    constructor
    · rw [herr]
      constructor
      · intro h
        cases h
      · intro h
        exact absurd h hv
    · intro _
      exact herr

/-- A small live store: entity rows with ids 1, 2, -3 (id column 0),
one item row and two event rows for agent 1. -/
def storeEx : Store :=
  { entityTable := [[1, 10], [2, 20], [-3, 30]]
    itemTable := [[1, 7]]
    eventTable := [[1, 5], [1, 6]] }

/-- A concrete issued snapshot of storeEx. -/
def gsEx : GameState := GameStateGenerator.generate 3 [] [] 0 0 0 storeEx

/-- Witness for C7 at a concrete snapshot and subject. -/
theorem where_in_id_idempotent_memoized_witness :
    (CacheWF gsEx ∧ validTable "entity")
    ∧ wRes (gsEx.where_in_id "entity" [1, 2]) = specRows gsEx "entity" [1, 2]
    ∧ (wGs gsEx (gsEx.where_in_id "entity" [1, 2])).where_in_id "entity" [1, 2]
        = .ok (wRes (gsEx.where_in_id "entity" [1, 2]),
               wGs gsEx (gsEx.where_in_id "entity" [1, 2]), 0) := by
  have h := where_in_id_idempotent_memoized gsEx "entity" [1, 2]
    (cacheWF_of_nil gsEx rfl) (Or.inl rfl)
  exact ⟨⟨cacheWF_of_nil gsEx rfl, Or.inl rfl⟩, h.2.1, h.2.2.2.1⟩

/-- Witness for C8: a valid name returns normally, an unknown name
(tile) raises the InvalidTable error. -/
theorem where_in_id_invalid_table_witness :
    CacheWF gsEx
    ∧ (gsEx.where_in_id "entity" [1]).isOk = true
    ∧ gsEx.where_in_id "tile" [1]
        = .error "data_type must be in entity, item, event" := by
  have h1 := where_in_id_invalid_table gsEx "entity" [1] (cacheWF_of_nil gsEx rfl)
  have h2 := where_in_id_invalid_table gsEx "tile" [1] (cacheWF_of_nil gsEx rfl)
  exact ⟨cacheWF_of_nil gsEx rfl, h1.1.mpr (Or.inl rfl), h2.2 (by decide)⟩

end NMMO
